import Mathlib

/-!
Shallow embedding of the lustre_exporter scrape-coalescing scheduler and the
v2 procfs parsing engine, together with theorems settling the specification
claims about them.

Conventions of the embedding:
* Go strings are Lean `String`s; all character-level work is done on `List Char`
  (the sources only manipulate ASCII metadata, so byte indices and char indices
  agree on every input in scope).
* Go functions that can return an `error` are embedded as `Except`/`Option`
  valued functions; a Go runtime panic (index out of range, nil dereference) is
  embedded as an `Option` `none` at the outermost level.
* Numeric sample values (Go `float64` / `int64`) are embedded as exact
  rationals / integers; every literal appearing in the claims is exactly
  representable in `float64`, so no rounding behaviour is lost.
* Functions keep the names of the Go functions they embed where Lean allows.
-/

deriving instance DecidableEq for Except

set_option maxRecDepth 40000

namespace LustreExp

/-! ## Go string primitives (strings package) -/

/-- Embeds Go `strings.Split(s, sep)` for a one-character separator `sep`:
splits around every occurrence of the character, keeping empty pieces. -/
def splitChar (c : Char) (s : List Char) : List (List Char) :=
  s.foldr
    (fun ch acc =>
      match acc with
      | [] => [[ch]]
      | cur :: rest => if ch = c then [] :: cur :: rest else (ch :: cur) :: rest)
    [[]]

theorem splitChar_ne_nil (c : Char) (s : List Char) : splitChar c s ≠ [] := by
  induction s with
  | nil => simp [splitChar]
  | cons ch t ih =>
    simp only [splitChar, List.foldr_cons] at *
    cases h : List.foldr _ [[]] t with
    | nil => exact absurd h ih
    | cons cur rest =>
      rw [h] at *
      by_cases hc : ch = c <;> simp [hc]

theorem splitChar_length_pos (c : Char) (s : List Char) : 0 < (splitChar c s).length :=
  List.length_pos.mpr (splitChar_ne_nil c s)

/-- The lift of `splitChar` to `String`s. -/
def goSplitC (c : Char) (s : String) : List String :=
  (splitChar c s.toList).map String.mk

/-- First index at which `sub` occurs in `l` (Go `strings.Index`, char level). -/
def findSub (sub : List Char) : List Char → Option Nat
  | [] => if sub.isPrefixOf ([] : List Char) then some 0 else none
  | c :: cs =>
    if sub.isPrefixOf (c :: cs) then some 0
    else (findSub sub cs).map (· + 1)

/-- Embeds Go `strings.Index(s, sub)`: first occurrence or `-1`. -/
def strIndex (s sub : String) : Int :=
  match findSub sub.toList s.toList with
  | some i => (i : Int)
  | none => -1

/-- Embeds Go `strings.Split(s, sep)` for a non-empty separator (fuel-driven so
that it reduces in the kernel; the fuel is always sufficient). -/
def splitSub (sep : List Char) : Nat → List Char → List (List Char)
  | 0, l => [l]
  | f + 1, l =>
    match findSub sep l with
    | none => [l]
    | some i => l.take i :: splitSub sep f (l.drop (i + sep.length))

/-- Embeds Go `strings.Split` for the multi-character separators used by the
sources (`"- "`). -/
def goSplit (s sep : String) : List String :=
  if sep.toList = [] then [s]
  else (splitSub sep.toList (s.toList.length + 1) s.toList).map String.mk

/-- Go `len(s)` (char level; all inputs in scope are ASCII). -/
def strLen (s : String) : Nat := s.toList.length

/-- Go `s[:n]` on strings. -/
def goTake (s : String) (n : Nat) : String := String.mk (s.toList.take n)

/-- Go `s[n:]` on strings. -/
def goDrop (s : String) (n : Nat) : String := String.mk (s.toList.drop n)

/-- Go `s[lo:hi]` on strings (validity of the bounds is checked by callers). -/
def goSlice (s : String) (lo hi : Nat) : String :=
  String.mk ((s.toList.drop lo).take (hi - lo))

/-- Embeds Go `strings.TrimSpace`. -/
def goTrim (s : String) : String :=
  String.mk (((s.toList.dropWhile Char.isWhitespace).reverse.dropWhile
    Char.isWhitespace).reverse)

/-- Embeds Go `strings.HasPrefix`. -/
def goHasPre (s p : String) : Bool := p.toList.isPrefixOf s.toList

/-- Embeds Go `strings.HasSuffix`. -/
def goHasSuf (s p : String) : Bool := p.toList.reverse.isPrefixOf s.toList.reverse

/-- Embeds Go `strings.TrimPrefix`. -/
def goTrimPre (s p : String) : String :=
  if goHasPre s p then goDrop s (strLen p) else s

/-- Embeds Go `strings.TrimSuffix`. -/
def goTrimSuf (s p : String) : String :=
  if goHasSuf s p then goTake s (strLen s - strLen p) else s

/-- Splits around every character satisfying `p`, keeping empty pieces
(the predicate generalization of `splitChar`). -/
def splitPred (p : Char → Bool) (s : List Char) : List (List Char) :=
  s.foldr
    (fun ch acc =>
      match acc with
      | [] => [[ch]]
      | cur :: rest => if p ch then [] :: cur :: rest else (ch :: cur) :: rest)
    [[]]

/-- Embeds Go `strings.Fields`: fields separated by runs of any whitespace,
no empties. -/
def goFields (s : String) : List String :=
  ((splitPred Char.isWhitespace s.toList).filterMap
    (fun w => if w = [] then none else some (String.mk w)))

/-- Embeds Go `strings.Replace(s, old, new, -1)`. -/
def goReplace (s old new : String) : String :=
  String.intercalate new (goSplit s old)

/-- Drops the empty pieces that sit strictly between the first and last piece
of a `splitChar ' '` result; `reSpaceSplit` uses it to merge runs of spaces. -/
def dropInnerEmptyTail : List (List Char) → List (List Char)
  | [] => []
  | [x] => [x]
  | x :: xs => if x = [] then dropInnerEmptyTail xs else x :: dropInnerEmptyTail xs

/-- Embeds `insProcfsV2.reSpace.Split(s, -1)` where `reSpace` is the Go regexp
`" +"`: splits on maximal runs of spaces, keeping boundary empties. -/
def reSpaceSplit (s : String) : List String :=
  (match splitChar ' ' s.toList with
   | [] => []
   | x :: xs => x :: dropInnerEmptyTail xs).map String.mk

/-! ## The number-token scanner (regexp `[0-9]*\.[0-9]+|[0-9]+`, `reNum`) -/

/-- One match attempt of `reNum` anchored at the head of `l`: returns the
matched token and the remainder. Mirrors the leftmost-first
preference of the regexp: the decimal alternative `[0-9]*\.[0-9]+` can only succeed when the
first non-digit character is a dot followed by a digit, otherwise the digit
run `[0-9]+` matches. -/
def matchNumAt (l : List Char) : Option (List Char × List Char) :=
  let ds := l.takeWhile Char.isDigit
  let r1 := l.drop ds.length
  match r1 with
  | '.' :: r2 =>
    let fs := r2.takeWhile Char.isDigit
    if fs = [] then
      if ds = [] then none else some (ds, r1)
    else some (ds ++ '.' :: fs, r2.drop fs.length)
  | _ => if ds = [] then none else some (ds, r1)

/-- Fuel-driven scan for all non-overlapping `reNum` matches (the fuel is
always sufficient: each step consumes at least one character). -/
def findNumsF : Nat → List Char → List (List Char)
  | 0, _ => []
  | _, [] => []
  | f + 1, c :: cs =>
    match matchNumAt (c :: cs) with
    | some (tok, rest) => tok :: findNumsF f rest
    | none => findNumsF f cs

/-- Embeds `insProcfsV2.reNum.FindAllString(s, -1)`. -/
def findNumsStr (s : String) : List String :=
  (findNumsF s.toList.length s.toList).map String.mk

/-- Value of a non-empty all-digit token; `none` otherwise. -/
def digitsToNat : List Char → Option Nat
  | [] => none
  | l =>
    if l.all Char.isDigit then
      some (l.foldl (fun acc c => 10 * acc + (c.toNat - '0'.toNat)) 0)
    else none

/-- Embeds Go `strconv.ParseInt(s, 10, 64)` restricted to the unsigned tokens
produced by the `reNum` scanner (`none` is a parse error): the token must be
all digits and fit in an `int64`. -/
def goParseInt (s : String) : Option Int :=
  match digitsToNat s.toList with
  | none => none
  | some n => if n ≤ 2 ^ 63 - 1 then some ((n : Int)) else none

/-- Decimal core of `goParseFloat`: digits, optionally a dot and digits. -/
def parseDecCore (l : List Char) : Option ℚ :=
  let ip := l.takeWhile Char.isDigit
  let r := l.drop ip.length
  match r with
  | [] =>
    match digitsToNat ip with
    | some n => some ((n : ℚ))
    | none => none
  | '.' :: fr =>
    let fp := fr.takeWhile Char.isDigit
    if fr.length = fp.length ∧ fp ≠ [] then
      some (mkRat
        ((ip.foldl (fun acc c => 10 * acc + (c.toNat - '0'.toNat)) 0 : Nat) * 10 ^ fp.length
          + (fp.foldl (fun acc c => 10 * acc + (c.toNat - '0'.toNat)) 0 : Nat))
        (10 ^ fp.length))
    else none
  | _ => none

/-- Embeds Go `strconv.ParseFloat(s, 64)` restricted to plain decimal
literals with an optional sign — the only shape the embedded sources ever
feed it; the value is kept as an exact rational (every concrete value in the
claims is exactly representable in `float64`). `none` is a parse error. -/
def goParseFloat (s : String) : Option ℚ :=
  match s.toList with
  | '-' :: r => (parseDecCore r).map Neg.neg
  | '+' :: r => parseDecCore r
  | _ => parseDecCore s.toList

/-! ## The sample model -/

/-- One emitted metric observation: the label names and values handed to the
`prometheusType` constructor together with the metric name, help text and
numeric value (the arguments of `appendMetrics`). -/
structure Sample where
  lnames : List String
  lvals : List String
  name : String
  help : String
  value : ℚ
deriving Repr, DecidableEq

/-- The fields of `lustreProcMetric` used by the v2 collection context
(`metricFunc` is embedded by the `Sample` constructor itself; the
`hasMultipleVals` field is part of the metric table, which lives in a
repository file not under `src/`, but its use sites are all in `src/`). -/
structure Metric where
  filename : String
  promName : String
  source : String
  path : String
  helpText : String
  hasMultipleVals : Bool
deriving Repr, DecidableEq

/-- Embeds `procfsV2Ctx.appendMetrics` for a single sample: an extra label is
appended to the basic label set when present. -/
def mkMetric (m : Metric) (basicLables : List String) (lableVals : List String)
    (val : ℚ) (extraLable extraLableVal : String) : Sample :=
  if extraLable ≠ "" then
    ⟨basicLables ++ [extraLable], lableVals ++ [extraLableVal], m.promName, m.helpText, val⟩
  else
    ⟨basicLables, lableVals, m.promName, m.helpText, val⟩

/-- Holds (`true`) when the sample carries the label `n` with value `v`. -/
def hasLabelVal (s : Sample) (n v : String) : Bool :=
  (s.lnames.zip s.lvals).any (fun p => p.1 == n && p.2 == v)

/-- The `multistatParsingStruct` record: the position of a numeric field within a matched
line, plus the capture pattern locating that line. -/
structure multistatParsingStruct where
  pattern : String
  index : Nat
deriving Repr, DecidableEq

/-! ## Constants defined in repository files missing from src/ -/

/-- Modelled from the spec: the four text-shape kinds of §4.2 are selected in
`collect` by comparing `metric.filename` against named constants defined in a
repository file not under `src/`; `single` is the default kind tag. Only their
values as distinct strings matter to the embedded control flow. -/
def single : String := "single"

/-- Modelled from the spec: the operation-counter block file name (§4.2 shape 3). -/
def stats : String := "stats"

/-- Modelled from the spec: the MDS operation-counter block file name. -/
def mdStats : String := "md_stats"

/-- Modelled from the spec: the encrypt-page-pool stats file name. -/
def encryptPagePools : String := "encrypt_page_pools"

/-- Modelled from the spec: the help-text constants keying `bytesMap`,
`jobStatsMultistatParsingStruct` and `brwStatsMetricBlocks` are defined in a
repository file not under `src/`; the maps in `src/` only use them as
distinct keys, so each is embedded as its own name. -/
def readSamplesHelp : String := "readSamplesHelp"

def readMinimumHelp : String := "readMinimumHelp"

def readMaximumHelp : String := "readMaximumHelp"

def readTotalHelp : String := "readTotalHelp"

def writeSamplesHelp : String := "writeSamplesHelp"

def writeMinimumHelp : String := "writeMinimumHelp"

def writeMaximumHelp : String := "writeMaximumHelp"

def writeTotalHelp : String := "writeTotalHelp"

def physicalPagesHelp : String := "physicalPagesHelp"

def pagesPerPoolHelp : String := "pagesPerPoolHelp"

def maxPagesHelp : String := "maxPagesHelp"

def maxPoolsHelp : String := "maxPoolsHelp"

def totalPagesHelp : String := "totalPagesHelp"

def totalFreeHelp : String := "totalFreeHelp"

def maxPagesReachedHelp : String := "maxPagesReachedHelp"

def growsHelp : String := "growsHelp"

def growsFailureHelp : String := "growsFailureHelp"

def shrinksHelp : String := "shrinksHelp"

def cacheAccessHelp : String := "cacheAccessHelp"

def cacheMissingHelp : String := "cacheMissingHelp"

def lowFreeMarkHelp : String := "lowFreeMarkHelp"

def maxWaitQueueDepthHelp : String := "maxWaitQueueDepthHelp"

def outOfMemHelp : String := "outOfMemHelp"

def pagesPerBlockRWHelp : String := "pagesPerBlockRWHelp"

def discontiguousPagesHelp : String := "discontiguousPagesHelp"

def diskIOsInFlightHelp : String := "diskIOsInFlightHelp"

def ioTimeHelp : String := "ioTimeHelp"

def diskIOSizeHelp : String := "diskIOSizeHelp"

def pagesPerRPCHelp : String := "pagesPerRPCHelp"

def rpcsInFlightHelp : String := "rpcsInFlightHelp"

def offsetHelp : String := "offsetHelp"

/-- Modelled from the spec: `getValidUtf8String` (defined in a repository file
not under `src/`) replaces invalid UTF-8; a Lean `String` is always valid
UTF-8, so it is the identity on every value the embedding produces. -/
def getValidUtf8String (s : String) : String := s

/-- Modelled from the spec: `convertToBytes` (defined in a repository file not
under `src/`) normalizes a histogram size token via a fixed size-name→bytes
table, e.g. `"4K"→"4096"`, `"1M"→"1048576"`; tokens without a recognized
suffix pass through unchanged. -/
def convertToBytes (s : String) : String :=
  let core := goTake s (strLen s - 1)
  match digitsToNat core.toList with
  | none => s
  | some n =>
    if goHasSuf s "K" then toString (n * 1024)
    else if goHasSuf s "M" then toString (n * 1024 * 1024)
    else if goHasSuf s "G" then toString (n * 1024 * 1024 * 1024)
    else s

/-- Assoc-list lookup embedding a Go map read that distinguishes presence
(`value, ok := m[k]`). -/
def lookupStr {α : Type} : List (String × α) → String → Option α
  | [], _ => none
  | (k, v) :: t, key => if k = key then some v else lookupStr t key

/-! ## parseFileElements (src/sources/proc_common.go) -/

/-- Embeds `parseFileElements`: the target name and node name are read off the
slash-separated path elements; the `pathLen < 1` branch returns the documented
error, and an out-of-range `nodeName` index (`pathLen - 2 - directoryDepth`
negative) is a Go runtime panic, embedded as `none`. -/
def parseFileElements (path : String) (directoryDepth : Nat) :
    Option (Except String (String × String)) :=
  let pathElements := (splitChar '/' path.toList).map String.mk
  let pathLen := pathElements.length
  if pathLen < 1 then some (Except.error "path did not return at least one element")
  else
    let name := pathElements.getD (pathLen - 1) ""
    let ni : Int := (pathLen : Int) - 2 - (directoryDepth : Int)
    if 0 ≤ ni ∧ ni < (pathLen : Int) then
      let nodeName := pathElements.getD ni.toNat ""
      some (Except.ok (name, goTrimSuf (goTrimPre nodeName "filter-") "_UUID"))
    else none

/-- Holds (`true`) exactly on an embedded error return. -/
def isErrRes {α : Type} : Option (Except String α) → Bool
  | some (Except.error _) => true
  | _ => false

/-! ## The job-state model (src/sources/procfs_v2.go) -/

/-- The `jobStateKeys` table: the 22 scalar operation counter keys, in slot order. -/
def jobStateKeys : List String :=
  ["open", "close", "mknod", "link", "unlink", "mkdir", "rmdir", "rename",
   "getattr", "setattr", "getxattr", "setxattr", "statfs", "sync",
   "samedir_rename", "crossdir_rename", "punch", "destroy", "create",
   "get_info", "set_info", "quotactl"]

/-- The `jobState` record: the counters of one job. `readbytes`/`writebytes` always hold 4
entries and `vals` 22 entries (the Go fixed-size arrays). -/
structure jobState where
  jobid : String
  readbytes : List Int
  writebytes : List Int
  vals : List Int
deriving Repr, DecidableEq

/-- The value of `jobStateInitVal` after `__init`: every one of the 30 `int64` counter
slots holds the absent sentinel `-1` (the `unsafe.Pointer` loop writes `-1`
over `readbytes`, `writebytes` and `vals`); `__init2` copies this value, so
every parse starts from it. -/
def jobStateInitVal : jobState :=
  ⟨"", List.replicate 4 (-1), List.replicate 4 (-1), List.replicate 22 (-1)⟩

/-- Loop body of `parsingNums`: walk the `reNum` tokens, `ParseInt` each one
into the next slot, stop after four; returns `(cnt, dest, errored)`. -/
def parsingNumsGo : List String → Nat → List Int → Nat × List Int × Bool
  | [], cnt, dest => (cnt, dest, false)
  | t :: ts, cnt, dest =>
    match goParseInt (goTrim t) with
    | none => (cnt, dest, true)
    | some num =>
      let dest' := dest.set cnt num
      let cnt' := cnt + 1
      if cnt' = 4 then (cnt', dest', false) else parsingNumsGo ts cnt' dest'

/-- Embeds `parsingNums`: scans `input` for `reNum` tokens and fills up to
four slots of `dest`. -/
def parsingNums (dest : List Int) (input : String) : Nat × List Int × Bool :=
  parsingNumsGo (findNumsStr input) 0 dest

/-- Embeds `parsingInt64`: the first `reNum` token of `input`, parsed as an
`int64` (`none` is the error return). -/
def parsingInt64 (input : String) : Option Int :=
  match findNumsStr input with
  | [] => none
  | t :: _ => goParseInt (goTrim t)

/-- The key of a counter line as `parsingFromText` computes it: the text
before the first colon, trimmed; `none` when the line has no colon past
position zero (such lines are skipped). -/
def lineKey (line : String) : Option String :=
  let idx := strIndex line ":"
  if idx < 1 then none else some (goTrim (goTake line idx.toNat))

/-- Sets slot `i` of `vals` from the first numeric token of the line
(one armed branch of the 22-way switch in `parsingFromText`). -/
def setScalarVal (js : jobState) (line : String) (i : Nat) : Except String jobState :=
  match parsingInt64 line with
  | none => Except.error "parsing failed"
  | some n => Except.ok { js with vals := js.vals.set i n }

/-- One iteration of the line loop of `parsingFromText`: locate the colon, match
the key against `read_bytes`/`write_bytes`/the 22 scalar keys, and update the
corresponding slots; unknown keys fall through unchanged. -/
def applyLine (js : jobState) (line : String) : Except String jobState :=
  let idx := strIndex line ":"
  if idx < 1 then Except.ok js
  else
    let key := goTrim (goTake line idx.toNat)
    match key with
    | "read_bytes" =>
      let r := parsingNums js.readbytes line
      if r.2.2 = true ∨ r.1 ≤ 3 then Except.error "invalid data for read_bytes"
      else Except.ok { js with readbytes := r.2.1 }
    | "write_bytes" =>
      let r := parsingNums js.writebytes line
      if r.2.2 = true ∨ r.1 ≤ 3 then Except.error "invalid data for write_bytes"
      else Except.ok { js with writebytes := r.2.1 }
    | "open" => setScalarVal js line 0
    | "close" => setScalarVal js line 1
    | "mknod" => setScalarVal js line 2
    | "link" => setScalarVal js line 3
    | "unlink" => setScalarVal js line 4
    | "mkdir" => setScalarVal js line 5
    | "rmdir" => setScalarVal js line 6
    | "rename" => setScalarVal js line 7
    | "getattr" => setScalarVal js line 8
    | "setattr" => setScalarVal js line 9
    | "getxattr" => setScalarVal js line 10
    | "setxattr" => setScalarVal js line 11
    | "statfs" => setScalarVal js line 12
    | "sync" => setScalarVal js line 13
    | "samedir_rename" => setScalarVal js line 14
    | "crossdir_rename" => setScalarVal js line 15
    | "punch" => setScalarVal js line 16
    | "destroy" => setScalarVal js line 17
    | "create" => setScalarVal js line 18
    | "get_info" => setScalarVal js line 19
    | "set_info" => setScalarVal js line 20
    | "quotactl" => setScalarVal js line 21
    | _ => Except.ok js

/-- The line loop of `parsingFromText`, stopping at the first failing line. -/
def applyLines (js : jobState) : List String → Except String jobState
  | [] => Except.ok js
  | l :: ls =>
    match applyLine js l with
    | Except.error e => Except.error e
    | Except.ok js' => applyLines js' ls

/-- Embeds `getJobID`: locates `job_id:` in the first line of the block and
returns the trimmed value after it. The branch taking a newline-relative
index as an absolute slice bound can produce an invalid Go slice (a runtime
panic, embedded as `none`); it is unreachable from `parsingFromText`, whose
argument never contains a newline. -/
def getJobID (line : String) : Option (Except String String) :=
  let idx := strIndex line "job_id:"
  if idx < 0 then some (Except.error "not found")
  else
    let idx2 := strIndex (goDrop line idx.toNat) "\n"
    if idx2 < 0 then
      some (Except.ok (getValidUtf8String (goTrim (goDrop line (idx.toNat + 7)))))
    else if idx.toNat + 7 ≤ idx2.toNat ∧ idx2.toNat ≤ strLen line then
      some (Except.ok (getValidUtf8String (goTrim (goSlice line (idx.toNat + 7) idx2.toNat))))
    else none

/-- Embeds `jobState.parsingFromText`: reset to the sentinel-initialized
value, split the block into lines, extract the job id from the first line,
then fold the counter lines. -/
def parsingFromText (content : String) : Option (Except String jobState) :=
  let lines := goSplitC '\n' content
  if lines.length < 1 then some (Except.error "invalid content for parsing jobStat")
  else
    match getJobID (lines.headD "") with
    | none => none
    | some (Except.error _) => some (Except.error "can not found jobid in content")
    | some (Except.ok jobid) =>
      some (applyLines { jobStateInitVal with jobid := jobid } lines.tail)

/-! ## job_stats projections and memoized parsing -/

/-- Embeds `getJobStatsOperationMetrics`: one sample per job per scalar
counter slot, skipping every slot still holding a negative sentinel; the
`operation` label carries the key of the slot. -/
def getJobStatsOperationMetrics (jobsStats : List jobState) (nodeType nodeName : String)
    (m : Metric) (basicLables : List String) : List Sample :=
  let basic2 := basicLables ++ ["operation"]
  jobsStats.flatMap (fun js =>
    (List.range jobStateKeys.length).filterMap (fun j =>
      if js.vals.getD j 0 < 0 then none
      else some (mkMetric m basic2 [nodeType, nodeName, js.jobid, jobStateKeys.getD j ""]
        ((js.vals.getD j 0 : Int) : ℚ) "" "")))

/-- The `jobStatsMultistatParsingStruct` map: position of each `read_bytes` /
`write_bytes` tuple entry selected by the help text of a metric. -/
def jobStatsMultistatParsingStruct : List (String × multistatParsingStruct) :=
  [(readSamplesHelp, ⟨"read_bytes", 0⟩),
   (readMinimumHelp, ⟨"read_bytes", 1⟩),
   (readMaximumHelp, ⟨"read_bytes", 2⟩),
   (readTotalHelp, ⟨"read_bytes", 3⟩),
   (writeSamplesHelp, ⟨"write_bytes", 0⟩),
   (writeMinimumHelp, ⟨"write_bytes", 1⟩),
   (writeMaximumHelp, ⟨"write_bytes", 2⟩),
   (writeTotalHelp, ⟨"write_bytes", 3⟩)]

/-- Embeds `getJobStatsIOMetrics`: one sample per job for the tuple position
selected by the help text of the metric; metrics outside the map yield nothing.
Note there is no sentinel check on this path. -/
def getJobStatsIOMetrics (jobsStats : List jobState) (nodeType nodeName : String)
    (m : Metric) (basicLables : List String) : List Sample :=
  match lookupStr jobStatsMultistatParsingStruct m.helpText with
  | none => []
  | some operation =>
    jobsStats.flatMap (fun js =>
      if operation.pattern = "read_bytes" then
        [mkMetric m basicLables [nodeType, nodeName, js.jobid]
          ((js.readbytes.getD operation.index 0 : Int) : ℚ) "" ""]
      else if operation.pattern = "write_bytes" then
        [mkMetric m basicLables [nodeType, nodeName, js.jobid]
          ((js.writebytes.getD operation.index 0 : Int) : ℚ) "" ""]
      else [])

/-- The per-block loop of `parseJobStatsText`: parse each job block, count a
warning and skip the block on a parse error, keep the parsed states in file
order; a panic inside a block parse (`none`) propagates. -/
def parseBlocks : List String → List jobState → Nat → Option (List jobState × Nat)
  | [], acc, warns => some (acc, warns)
  | b :: bs, acc, warns =>
    match parsingFromText b with
    | none => none
    | some (Except.error _) => parseBlocks bs acc (warns + 1)
    | some (Except.ok js) => parseBlocks bs (acc ++ [js]) warns

/-- The per-pass collection context state the job_stats path touches: the
`filesJobStats` memoization map from file path to parsed job states. -/
structure PCtx where
  filesJobStats : List (String × List jobState)
deriving Repr, DecidableEq

/-- The observable outcome of one `parseJobStatsText` call: the context
afterwards, the file-reader reads it performed, the warnings it logged, the
samples it appended, and its error return. -/
structure PJSRes where
  ctx : PCtx
  reads : List String
  warns : Nat
  samples : List Sample
  err : Option String
deriving Repr, DecidableEq

/-- The projection `parseJobStatsText` applies to the (cached or fresh)
job states: operation metrics when the metric `hasMultipleVals`, I/O tuple
metrics otherwise. -/
def jobProjection (m : Metric) (basicLables : List String) (nodeType nodeName : String)
    (jss : List jobState) : List Sample :=
  if m.hasMultipleVals then getJobStatsOperationMetrics jss nodeType nodeName m basicLables
  else getJobStatsIOMetrics jss nodeType nodeName m basicLables

/-- Embeds `procfsV2Ctx.parseJobStatsText` over a pure file-content map `rd`
(the `fileReader` is not under `src/`; per the spec it is the capability
`readFile(path) -> bytes`, `none` embedding a read error). A cache hit reuses
the stored job states with no read; otherwise the file is read, split on the
job separator `"- "`, parsed block by block (skipping and counting failed
blocks), cached, and projected. A file whose split yields no job chunk
returns early — before the cache write. -/
def parseJobStatsText (rd : String → Option String) (st : PCtx) (path : String)
    (m : Metric) (basicLables : List String) (nodeType nodeName : String) :
    Option PJSRes :=
  match lookupStr st.filesJobStats path with
  | some jobsStats =>
    some ⟨st, [], 0, jobProjection m basicLables nodeType nodeName jobsStats, none⟩
  | none =>
    match rd path with
    | none => some ⟨st, [path], 0, [], some "read error"⟩
    | some jobStatsContent =>
      let splits := goSplit jobStatsContent "- "
      if splits.length ≤ 1 then some ⟨st, [path], 0, [], none⟩
      else
        match parseBlocks splits.tail [] 0 with
        | none => none
        | some (jss, warns) =>
          let st' : PCtx := ⟨st.filesJobStats ++ [(path, jss)]⟩
          some ⟨st', [path], warns, jobProjection m basicLables nodeType nodeName jss, none⟩

/-- Embeds `procfsV2Ctx.parseJobStats`: resolve the node name from the path,
then delegate to `parseJobStatsText` (an error return from it aborts the
caller). -/
def parseJobStats (rd : String → Option String) (st : PCtx) (path : String)
    (directoryDepth : Nat) (m : Metric) : Option (PCtx × List Sample × Option String) :=
  match parseFileElements path directoryDepth with
  | none => none
  | some (Except.error e) => some (st, [], some e)
  | some (Except.ok (_, nodeName)) =>
    match parseJobStatsText rd st path m ["component", "target", "jobid"] m.source nodeName with
    | none => none
    | some r => some (r.ctx, r.samples, r.err)

/-! ## Operation-counter and I/O-size stats parsing -/

/-- Embeds `regexCaptureString(pat, text)` for the patterns the v2 source
builds, all of shape `lit.*` with `lit` a literal free of regexp
metacharacters and newlines: the first match is the first occurrence of
`lit`, extended greedily to the end of its line. Returns `""` when there is
no match. -/
def regexCaptureLine (pat : String) (text : String) : String :=
  let lit := goTake pat (strLen pat - 2)
  let i := strIndex text lit
  if i < 0 then ""
  else
    let rest := goDrop text i.toNat
    let j := strIndex rest "\n"
    if j < 0 then rest else goTake rest j.toNat

/-- The `operationSlice` table: the fixed allow-list of operation names recognized in
`stats`/`md_stats` files, each with the field index of its count. -/
def operationSlice : List multistatParsingStruct :=
  [⟨"open", 1⟩, ⟨"close", 1⟩, ⟨"getattr", 1⟩, ⟨"setattr", 1⟩, ⟨"getxattr", 1⟩,
   ⟨"setxattr", 1⟩, ⟨"statfs", 1⟩, ⟨"seek", 1⟩, ⟨"readdir", 1⟩, ⟨"truncate", 1⟩,
   ⟨"alloc_inode", 1⟩, ⟨"removexattr", 1⟩, ⟨"unlink", 1⟩, ⟨"inode_permission", 1⟩,
   ⟨"create", 1⟩, ⟨"get_info", 1⟩, ⟨"set_info_async", 1⟩, ⟨"connect", 1⟩, ⟨"ping", 1⟩]

/-- Loop body of `getStatsOperationMetrics` over `operationSlice`: capture
the operation's line, skip absent operations, split on space runs and parse
the indexed field; a parse error aborts, an out-of-range index is a Go panic
(`none`). Samples appended before an abort are retained by the context. -/
def statsOpGo (statsFile nodeType nodeName : String) (m : Metric)
    (basicLables : List String) :
    List multistatParsingStruct → List Sample → Option (List Sample × Option String)
  | [], acc => some (acc, none)
  | operation :: ops, acc =>
    let opStat := regexCaptureLine (operation.pattern ++ " .*") statsFile
    if strLen opStat < 1 then statsOpGo statsFile nodeType nodeName m basicLables ops acc
    else
      let bytesSplit := reSpaceSplit opStat
      if h : operation.index < bytesSplit.length then
        match goParseFloat (bytesSplit.get ⟨operation.index, h⟩) with
        | none => some (acc, some "parse error")
        | some result =>
          statsOpGo statsFile nodeType nodeName m basicLables ops
            (acc ++ [mkMetric m basicLables [nodeType, nodeName] result
              "operation" operation.pattern])
      else none

/-- Embeds `getStatsOperationMetrics`. -/
def getStatsOperationMetrics (statsFile nodeType nodeName : String) (m : Metric)
    (basicLables : List String) : Option (List Sample × Option String) :=
  statsOpGo statsFile nodeType nodeName m basicLables operationSlice []

/-- The `bytesMap` table: for each I/O-size metric help text, the capture pattern of
its line and the position of its numeric field. -/
def bytesMap : List (String × multistatParsingStruct) :=
  [(readSamplesHelp, ⟨"read_bytes .*", 1⟩),
   (readMinimumHelp, ⟨"read_bytes .*", 4⟩),
   (readMaximumHelp, ⟨"read_bytes .*", 5⟩),
   (readTotalHelp, ⟨"read_bytes .*", 6⟩),
   (writeSamplesHelp, ⟨"write_bytes .*", 1⟩),
   (writeMinimumHelp, ⟨"write_bytes .*", 4⟩),
   (writeMaximumHelp, ⟨"write_bytes .*", 5⟩),
   (writeTotalHelp, ⟨"write_bytes .*", 6⟩),
   (physicalPagesHelp, ⟨"physical pages: .*", 2⟩),
   (pagesPerPoolHelp, ⟨"pages per pool: .*", 3⟩),
   (maxPagesHelp, ⟨"max pages: .*", 2⟩),
   (maxPoolsHelp, ⟨"max pools: .*", 2⟩),
   (totalPagesHelp, ⟨"total pages: .*", 2⟩),
   (totalFreeHelp, ⟨"total free: .*", 2⟩),
   (maxPagesReachedHelp, ⟨"max pages reached: .*", 3⟩),
   (growsHelp, ⟨"grows: .*", 1⟩),
   (growsFailureHelp, ⟨"grows failure: .*", 2⟩),
   (shrinksHelp, ⟨"shrinks: .*", 1⟩),
   (cacheAccessHelp, ⟨"cache access: .*", 2⟩),
   (cacheMissingHelp, ⟨"cache missing: .*", 2⟩),
   (lowFreeMarkHelp, ⟨"low free mark: .*", 3⟩),
   (maxWaitQueueDepthHelp, ⟨"max waitqueue depth: .*", 3⟩),
   (outOfMemHelp, ⟨"out of mem: .*", 3⟩)]

/-- Embeds `getStatsIOMetrics`: capture the line selected by the help
text of the metric, split on space runs, parse the positional field. A help text
outside `bytesMap` yields the zero-value struct whose empty pattern captures
an empty string, hence zero samples; an absent line also yields zero samples;
a parse error aborts; an out-of-range index is a Go panic (`none`). -/
def getStatsIOMetrics (statsFile nodeType nodeName : String) (m : Metric)
    (basicLables : List String) : Option (List Sample × Option String) :=
  match lookupStr bytesMap m.helpText with
  | none => some ([], none)
  | some entry =>
    let bytesString := regexCaptureLine entry.pattern statsFile
    if strLen bytesString < 1 then some ([], none)
    else
      let bytesSplit := reSpaceSplit bytesString
      if h : entry.index < bytesSplit.length then
        match goParseFloat (bytesSplit.get ⟨entry.index, h⟩) with
        | none => some ([], some "parse error")
        | some result =>
          some ([mkMetric m basicLables [nodeType, nodeName] result "" ""], none)
      else none

/-- Embeds `parseStatsFile`: read the file once, then dispatch on
`hasMultipleVals` (the `statsList`/`metricList` indirection in the source is
always empty and drops out). -/
def parseStatsFile (rd : String → Option String) (path nodeType nodeName : String)
    (m : Metric) (basicLables : List String) : Option (List Sample × Option String) :=
  match rd path with
  | none => some ([], some "read error")
  | some statsFile =>
    if m.hasMultipleVals then
      getStatsOperationMetrics statsFile nodeType nodeName m basicLables
    else
      getStatsIOMetrics statsFile nodeType nodeName m basicLables

/-- Embeds `procfsV2Ctx.parseFile`: the `single` kind reads the file and
parses its trimmed content as one scalar; the stats kinds delegate to
`parseStatsFile`; any other kind falls through the switch doing nothing. -/
def parseFile (rd : String → Option String) (nodeType metricType path : String)
    (directoryDepth : Nat) (m : Metric) (basicLables : List String) :
    Option (List Sample × Option String) :=
  match parseFileElements path directoryDepth with
  | none => none
  | some (Except.error e) => some ([], some e)
  | some (Except.ok (_, nodeName)) =>
    if metricType = single then
      match rd path with
      | none => some ([], some "read error")
      | some value =>
        match goParseFloat (goTrim value) with
        | none => some ([], some "parse error")
        | some convertedValue =>
          some ([mkMetric m basicLables [nodeType, nodeName] convertedValue "" ""], none)
    else if metricType = stats ∨ metricType = mdStats ∨ metricType = encryptPagePools then
      parseStatsFile rd path nodeType nodeName m basicLables
    else some ([], none)

/-! ## Histogram (brw_stats / rpc_stats) parsing -/

/-- The `brwStatsMetricBlocks` map: block heading selected by the help text of each
histogram metric. -/
def brwStatsMetricBlocks : List (String × String) :=
  [(pagesPerBlockRWHelp, "pages per bulk r/w"),
   (discontiguousPagesHelp, "discontiguous pages"),
   (diskIOsInFlightHelp, "disk I/Os in flight"),
   (ioTimeHelp, "I/O time"),
   (diskIOSizeHelp, "disk I/O size"),
   (pagesPerRPCHelp, "pages per rpc"),
   (rpcsInFlightHelp, "rpcs in flight"),
   (offsetHelp, "offset")]

/-- Embeds `regexCaptureString("(?ms:^" ++ heading ++ ".*?(\n\n|\\z))", text)`
for a literal heading: the match starts at the first line start where the
heading occurs and extends non-greedily to the end of the first blank-line
separator (inclusive) or to the end of the text. Returns `""` when the
heading occurs at no line start. -/
def regexCaptureBlock (heading text : String) : String :=
  let i : Int :=
    if goHasPre text heading then 0
    else
      let k := strIndex text ("\n" ++ heading)
      if k < 0 then -1 else k + 1
  if i < 0 then ""
  else
    let rest := goDrop text i.toNat
    let j := strIndex rest "\n\n"
    if j < 0 then rest else goTake rest (j.toNat + 2)

/-- Row loop of `splitBRWStats`. Rows with at least six fields yield a read
and a write sample from fields 1 and 5; shorter rows take the
`len(fields) >= 1` branch, which reads `fields[1]` — an index out of range
(Go panic, `none`) when the row has exactly one field; a parse error aborts,
retaining the samples appended before it. -/
def brwGo (nodeType nodeName : String) (m : Metric) (lables : List String)
    (extraLable extraLableVal : String) :
    List String → List Sample → Option (List Sample × Option String)
  | [], acc => some (acc, none)
  | line :: rest, acc =>
    if strLen line > 1 then
      let fields := goFields line
      if fields.length ≥ 6 then
        let size := convertToBytes (goReplace (fields.getD 0 "") ":" "")
        match goParseFloat (fields.getD 1 "") with
        | none => some (acc, some "parse error")
        | some read =>
          match goParseFloat (fields.getD 5 "") with
          | none => some (acc, some "parse error")
          | some write =>
            brwGo nodeType nodeName m lables extraLable extraLableVal rest
              (acc ++ [mkMetric m lables [nodeType, nodeName, "read", size] read
                         extraLable extraLableVal,
                       mkMetric m lables [nodeType, nodeName, "write", size] write
                         extraLable extraLableVal])
      else if fields.length ≥ 1 then
        if fields.length ≥ 2 then
          let size := convertToBytes (goReplace (fields.getD 0 "") ":" "")
          match goParseFloat (fields.getD 1 "") with
          | none => some (acc, some "parse error")
          | some rpc =>
            brwGo nodeType nodeName m lables extraLable extraLableVal rest
              (acc ++ [mkMetric m lables [nodeType, nodeName, "read", size] rpc
                         extraLable extraLableVal])
        else none
      else brwGo nodeType nodeName m lables extraLable extraLableVal rest acc
    else brwGo nodeType nodeName m lables extraLable extraLableVal rest acc

/-- Embeds `procfsV2Ctx.splitBRWStats`: an empty block yields no samples;
otherwise every line after the heading line is processed by `brwGo`. -/
def splitBRWStats (nodeType nodeName statBlock : String) (m : Metric)
    (lables : List String) (extraLable extraLableVal : String) :
    Option (List Sample × Option String) :=
  if strLen statBlock = 0 ∨ statBlock = "" then some ([], none)
  else brwGo nodeType nodeName m lables extraLable extraLableVal
    (goSplitC '\n' statBlock).tail []

/-- Embeds `procfsV2Ctx.parseBRWStats`: resolve the node name, read the
file, capture the stat block of the metric, resolve the optional `type` extra
label from the third-from-last path element (an out-of-range element access
is a Go panic, `none`), and split the block into samples. -/
def parseBRWStats (rd : String → Option String) (nodeType _metricType path : String)
    (directoryDepth : Nat) (m : Metric) (basicLables : List String) :
    Option (List Sample × Option String) :=
  match parseFileElements path directoryDepth with
  | none => none
  | some (Except.error e) => some ([], some e)
  | some (Except.ok (_, nodeName)) =>
    match rd path with
    | none => some ([], some "read error")
    | some statsFile =>
      let block := regexCaptureBlock ((lookupStr brwStatsMetricBlocks m.helpText).getD "")
        statsFile
      if m.hasMultipleVals then
        let pathElements := goSplitC '/' path
        if pathElements.length ≥ 3 then
          splitBRWStats nodeType nodeName block m basicLables "type"
            (pathElements.getD (pathElements.length - 3) "")
        else none
      else splitBRWStats nodeType nodeName block m basicLables "" ""

/-! ## The per-source collection pass (procfsV2Ctx.collect) -/

/-- Per-(metric, path) dispatch of the switch of `collect` on `metric.filename`.
Returns the updated job-stats cache, the samples this path appended, and the
error that aborts the pass, if any. -/
def collectOne (rd : String → Option String) (st : PCtx) (m : Metric)
    (directoryDepth : Nat) (path : String) : Option (PCtx × List Sample × Option String) :=
  match m.filename with
  | "brw_stats" =>
    match parseBRWStats rd m.source "stats" path directoryDepth m
      ["component", "target", "operation", "size"] with
    | none => none
    | some (sm, e) => some (st, sm, e)
  | "rpc_stats" =>
    match parseBRWStats rd m.source "stats" path directoryDepth m
      ["component", "target", "operation", "size"] with
    | none => none
    | some (sm, e) => some (st, sm, e)
  | "job_stats" => parseJobStats rd st path directoryDepth m
  | _ =>
    let metricType :=
      if m.filename = stats then stats
      else if m.filename = mdStats then mdStats
      else if m.filename = encryptPagePools then encryptPagePools
      else single
    match parseFile rd m.source metricType path directoryDepth m
      ["component", "target"] with
    | none => none
    | some (sm, e) => some (st, sm, e)

/-- Path loop of `collect` for one metric: process each resolved path in
order, accumulating samples; the first error stops the loop, keeping the
samples accumulated so far (they already live on the context). -/
def collectPathsGo (rd : String → Option String) (m : Metric) (directoryDepth : Nat) :
    List String → PCtx → List Sample → Option (PCtx × List Sample × Option String)
  | [], st, acc => some (st, acc, none)
  | p :: ps, st, acc =>
    match collectOne rd st m directoryDepth p with
    | none => none
    | some (st', sm, some e) => some (st', acc ++ sm, some e)
    | some (st', sm, none) => collectPathsGo rd m directoryDepth ps st' (acc ++ sm)

/-- Modelled from the spec: the `fileReader` lives in a repository file not
under `src/`; per §4.1 it is the capability `glob(pattern) -> list of paths`
(with `none` embedding a glob error) consumed by `collect`. -/
def FileGlob : Type := String → Option (List String)

/-- Embeds `filepath.Join` for the three-component join `collect` performs
(all inputs in scope are clean relative paths). -/
def joinPath (a b c : String) : String := a ++ "/" ++ b ++ "/" ++ c

/-- Embeds `strings.Count(s, "/")`. -/
def countSlash (s : String) : Nat := (splitChar '/' s.toList).length - 1

/-- Metric loop of `collect`: resolve the glob of each metric, process every
matched path, and return at the first error, keeping the samples accumulated
so far on the context. -/
def collectGo (g : FileGlob) (rd : String → Option String) (basePath : String) :
    List Metric → PCtx → List Sample → Option (PCtx × List Sample × Option String)
  | [], st, acc => some (st, acc, none)
  | m :: ms, st, acc =>
    let directoryDepth := countSlash m.filename
    match g (joinPath basePath m.path m.filename) with
    | none => some (st, acc, some "glob error")
    | some paths =>
      match collectPathsGo rd m directoryDepth paths st acc with
      | none => none
      | some (st', acc', some e) => some (st', acc', some e)
      | some (st', acc', none) => collectGo g rd basePath ms st' acc'

/-- One metric source's static configuration: its base path and its metric
table slice. -/
structure SourceCfg where
  basePath : String
  lustreProcMetrics : List Metric
deriving Repr, DecidableEq

/-- Embeds `procfsV2Ctx.collect` for one source context, starting from an
empty per-pass cache and sample list (`prepareFiles` only warms the reader
cache and is behaviourally inert). -/
def collect (g : FileGlob) (rd : String → Option String) (s : SourceCfg) :
    Option (PCtx × List Sample × Option String) :=
  collectGo g rd s.basePath s.lustreProcMetrics ⟨[]⟩ []

/-- The per-source fan-out of `worker.run`: every enabled source collects on
its own goroutine with its own context; results are per-source. -/
def runSources (g : FileGlob) (rd : String → Option String) (srcs : List SourceCfg) :
    List (Option (PCtx × List Sample × Option String)) :=
  srcs.map (collect g rd)

/-! ## The scrape-coalescing scheduler (src/unnamed/part_001: runner/worker)

Time is embedded as an integer instant (Go `time.Time` under subtraction to a
`time.Duration`); a worker's accumulated per-source results are carried on
the worker record, abstracting the completed collection of `worker.run`. Pointer
identity of workers is embedded by an `id` field. -/

/-- A `worker`: one collection pass. `creat` is its creation instant, `endT`
the instant its last per-source goroutine finished, and `ctxs` the per-source
(name, accumulated samples) results of the pass. -/
structure RWorker (μ : Type) where
  id : Nat
  creat : Int
  endT : Int
  ctxs : List (String × List μ)
deriving Repr, DecidableEq

/-- The mutex-protected bookkeeping of the `runner`: the in-flight worker set and
the most recently completed (`lastSuccess`) worker. -/
structure RState (μ : Type) where
  workers : List (RWorker μ)
  lastSuccess : Option (RWorker μ)
deriving Repr, DecidableEq

/-- Embeds `worker.update`: replay the accumulated samples of every
per-source context, in context order. -/
def workerUpdate {μ : Type} (w : RWorker μ) : List μ :=
  w.ctxs.flatMap (fun c => c.2)

/-- Loop body of the at-capacity selection of `getRunnerWorker`: each
in-flight worker replaces the candidate when the candidate was created
before it (`ret.creat.Before(worker.creat)`). -/
def selectGo {μ : Type} : Option (RWorker μ) → List (RWorker μ) → Option (RWorker μ)
  | ret, [] => ret
  | ret, w :: ws =>
    selectGo
      (match ret with
       | none => some w
       | some r => if r.creat < w.creat then some w else some r)
      ws

/-- The at-capacity selection loop of `getRunnerWorker`, starting from `nil`.
The Go map iteration order is arbitrary, so the embedding quantifies over
list orders. -/
def selectAtCapacity {μ : Type} (ws : List (RWorker μ)) : Option (RWorker μ) :=
  selectGo none ws

/-- Embeds `runner.getRunnerWorker`: at capacity, return a worker chosen by
the selection loop and change nothing; below capacity, insert and start the
freshly created worker (`fresh` stands for `newWorker(list, r)`; its `ctxs`
carry the results its run will accumulate). The returned flag records
whether a new worker was created and started. -/
def getRunnerWorker {μ : Type} (maxWorker : Nat) (st : RState μ) (fresh : RWorker μ) :
    Option (RWorker μ) × RState μ × Bool :=
  if st.workers.length ≥ maxWorker then
    (selectAtCapacity st.workers, st, false)
  else
    (some fresh, ⟨fresh :: st.workers, st.lastSuccess⟩, true)

/-- Embeds `runner.doneForWorker`: record the worker as `lastSuccess` and
delete it from the in-flight set. -/
def doneForWorker {μ : Type} (st : RState μ) (w : RWorker μ) : RState μ :=
  ⟨st.workers.filter (fun x => x.id ≠ w.id), some w⟩

/-- One scheduler operation, for reachability reasoning: a scrape request
acquiring a worker, or a worker completing. -/
inductive ROp (μ : Type) where
  | get (fresh : RWorker μ)
  | done (w : RWorker μ)

/-- Effect of one operation on the runner's bookkeeping. -/
def rStep {μ : Type} (maxWorker : Nat) (st : RState μ) : ROp μ → RState μ
  | ROp.get fresh => (getRunnerWorker maxWorker st fresh).2.1
  | ROp.done w => doneForWorker st w

/-- The runner's bookkeeping after a sequence of operations from the initial
empty state (`insRunner`). -/
def rRun {μ : Type} (maxWorker : Nat) (ops : List (ROp μ)) : RState μ :=
  ops.foldl (rStep maxWorker) ⟨[], none⟩

/-- Embeds the slow path of `runner.updateV2` (no fresh-enough completed
pass): acquire or attach to a worker, wait for it, and replay its samples;
its completion runs `doneForWorker`. Attaching when the in-flight set is
empty at capacity zero dereferences a nil worker (Go panic, `none`). -/
def updateV2Slow {μ : Type} (maxWorker : Nat) (st : RState μ) (fresh : RWorker μ) :
    Option (List μ × RState μ × Bool) :=
  match getRunnerWorker maxWorker st fresh with
  | (none, _, _) => none
  | (some w, st1, created) => some (workerUpdate w, doneForWorker st1 w, created)

/-- Embeds `runner.updateV2`: when the most recently completed worker
finished within `SHELF_LIFE` of `now`, replay its accumulated samples and
change nothing (the Boolean records that no worker was created or started);
otherwise take the slow path. -/
def updateV2 {μ : Type} (shelfLife : Int) (maxWorker : Nat) (st : RState μ)
    (now : Int) (fresh : RWorker μ) : Option (List μ × RState μ × Bool) :=
  match st.lastSuccess with
  | some lastSuccess =>
    if now - lastSuccess.endT ≤ shelfLife then
      some (workerUpdate lastSuccess, st, false)
    else updateV2Slow maxWorker st fresh
  | none => updateV2Slow maxWorker st fresh

/-! ## Helper lemmas -/

theorem getD_set_ne (l : List Int) (i j : Nat) (v : Int) (hij : i ≠ j) :
    (l.set i v).getD j 0 = l.getD j 0 := by
  induction l generalizing i j with
  | nil => simp
  | cons a t ih =>
    cases i with
    | zero =>
      cases j with
      | zero => exact absurd rfl hij
      | succ j => simp [List.set]
    | succ i =>
      cases j with
      | zero => simp [List.set]
      | succ j => simpa [List.set] using ih i j (fun e => hij (by rw [e]))

theorem lookupStr_append_self {α : Type} (c : List (String × α)) (path : String)
    (v : α) (hc : lookupStr c path = none) :
    lookupStr (c ++ [(path, v)]) path = some v := by
  induction c with
  | nil => simp [lookupStr]
  | cons h t ih =>
    obtain ⟨k, w⟩ := h
    by_cases hk : k = path
    · simp [lookupStr, hk] at hc
    · simp only [lookupStr, hk, if_false, List.cons_append] at hc ⊢
      simpa [lookupStr, hk] using ih hc

theorem selectGo_spec {μ : Type} (ws : List (RWorker μ)) (acc : Option (RWorker μ))
    (w : RWorker μ) (h : selectGo acc ws = some w) :
    (acc = some w ∨ w ∈ ws) ∧ (∀ x ∈ ws, x.creat ≤ w.creat) ∧
      (∀ r, acc = some r → r.creat ≤ w.creat) := by
  induction ws generalizing acc with
  | nil =>
    simp only [selectGo] at h
    exact ⟨Or.inl h, by simp, fun r hr => by rw [hr] at h; cases h; exact le_refl _⟩
  | cons a t ih =>
    simp only [selectGo] at h
    cases acc with
    | none =>
      obtain ⟨hmem, hall, hacc⟩ := ih (some a) h
      refine ⟨Or.inr ?_, ?_, ?_⟩
      · cases hmem with
        | inl he => exact List.mem_cons.mpr (Or.inl (Option.some.inj he).symm)
        | inr hm => exact List.mem_cons_of_mem a hm
      · intro x hx
        cases List.mem_cons.mp hx with
        | inl he => exact he ▸ hacc a rfl
        | inr hm => exact hall x hm
      · intro r hr
        cases hr
    | some r =>
      by_cases hc : r.creat < a.creat
      · simp only [hc, if_true] at h
        obtain ⟨hmem, hall, hacc⟩ := ih (some a) h
        refine ⟨Or.inr ?_, ?_, ?_⟩
        · cases hmem with
          | inl he => exact List.mem_cons.mpr (Or.inl (Option.some.inj he).symm)
          | inr hm => exact List.mem_cons_of_mem a hm
        · intro x hx
          cases List.mem_cons.mp hx with
          | inl he => exact he ▸ hacc a rfl
          | inr hm => exact hall x hm
        · intro s hs
          cases hs
          exact le_trans (le_of_lt hc) (hacc a rfl)
      · simp only [hc, if_false] at h
        obtain ⟨hmem, hall, hacc⟩ := ih (some r) h
        refine ⟨?_, ?_, ?_⟩
        · cases hmem with
          | inl he => exact Or.inl he
          | inr hm => exact Or.inr (List.mem_cons_of_mem a hm)
        · intro x hx
          cases List.mem_cons.mp hx with
          | inl he =>
            subst he
            exact le_trans (le_of_not_lt hc) (hacc r rfl)
          | inr hm => exact hall x hm
        · exact hacc

theorem rStep_preserves_bound {μ : Type} (maxWorker : Nat) (st : RState μ)
    (op : ROp μ) (h : st.workers.length ≤ maxWorker) :
    (rStep maxWorker st op).workers.length ≤ maxWorker := by
  cases op with
  | get fresh =>
    simp only [rStep, getRunnerWorker]
    by_cases hcap : st.workers.length ≥ maxWorker
    · simp [hcap, h]
    · simp only [hcap, if_false]
      have : st.workers.length < maxWorker := lt_of_not_ge hcap
      simpa using this
  | done w =>
    simp only [rStep, doneForWorker]
    exact le_trans (List.length_filter_le _ _) h

theorem rRun_go_bound {μ : Type} (maxWorker : Nat) (ops : List (ROp μ)) (st : RState μ)
    (h : st.workers.length ≤ maxWorker) :
    (ops.foldl (rStep maxWorker) st).workers.length ≤ maxWorker := by
  induction ops generalizing st with
  | nil => exact h
  | cons op t ih => exact ih _ (rStep_preserves_bound maxWorker st op h)

/-! ## Claim theorems: the scheduler -/

/-- Claim C1: if a scrape request arrives while the most recently completed
worker finished within the freshness window (`SHELF_LIFE`) of the request
time, `updateV2` replays that worker's already-accumulated samples and
neither creates nor starts a new worker (the in-flight set and `lastSuccess`
are untouched and the created flag is `false`); any two requests served this
way observe the identical sample set of that completed pass. -/
theorem C1_fresh_scrape_replays {μ : Type} (shelfLife : Int) (maxWorker : Nat)
    (st : RState μ) (w : RWorker μ) (now1 now2 : Int) (f1 f2 : RWorker μ)
    (hls : st.lastSuccess = some w)
    (h1 : now1 - w.endT ≤ shelfLife) (h2 : now2 - w.endT ≤ shelfLife) :
    updateV2 shelfLife maxWorker st now1 f1 = some (workerUpdate w, st, false) ∧
    updateV2 shelfLife maxWorker st now2 f2 = some (workerUpdate w, st, false) := by
  unfold updateV2
  rw [hls]
  simp [h1, h2]

/-- Witness for C1 at a concrete state: a pass completed at instant 10 with
samples `[5, 6]` is replayed unchanged for requests at instants 10 and 11
with a freshness window of 1. -/
theorem C1_fresh_scrape_replays_witness :
    updateV2 1 4 (⟨[], some ⟨1, 1, 10, [("ost", [5]), ("mdt", [6])]⟩⟩ : RState Nat) 10
        ⟨3, 3, 12, [("ost", [7])]⟩ =
      some ([5, 6], ⟨[], some ⟨1, 1, 10, [("ost", [5]), ("mdt", [6])]⟩⟩, false) ∧
    updateV2 1 4 (⟨[], some ⟨1, 1, 10, [("ost", [5]), ("mdt", [6])]⟩⟩ : RState Nat) 11
        ⟨4, 3, 12, [("ost", [8])]⟩ =
      some ([5, 6], ⟨[], some ⟨1, 1, 10, [("ost", [5]), ("mdt", [6])]⟩⟩, false) := by
  have h := C1_fresh_scrape_replays 1 4
    (⟨[], some ⟨1, 1, 10, [("ost", [5]), ("mdt", [6])]⟩⟩ : RState Nat)
    ⟨1, 1, 10, [("ost", [5]), ("mdt", [6])]⟩ 10 11
    ⟨3, 3, 12, [("ost", [7])]⟩ ⟨4, 3, 12, [("ost", [8])]⟩ rfl (by decide) (by decide)
  exact ⟨h.1.trans (by decide), h.2.trans (by decide)⟩

/-- Claim C2 counterexample: with the in-flight set at capacity holding
workers created at instants 1 and 2, `getRunnerWorker` returns the worker
created at instant 2 — the newest — in either iteration order, even though a
strictly earlier-created worker (instant 1) is in flight; the claim instead
requires the worker with the earliest creation timestamp. -/
theorem C2_counterexample :
    ((getRunnerWorker 2 (⟨[⟨1, 1, 10, []⟩, ⟨2, 2, 11, []⟩], none⟩ : RState Nat)
        ⟨3, 3, 12, []⟩).1 = some ⟨2, 2, 11, []⟩) ∧
    ((getRunnerWorker 2 (⟨[⟨2, 2, 11, []⟩, ⟨1, 1, 10, []⟩], none⟩ : RState Nat)
        ⟨3, 3, 12, []⟩).1 = some ⟨2, 2, 11, []⟩) ∧
    ((1 : Int) < 2) := by
  decide

/-- Claim C2 (amended): when a scrape request finds the in-flight worker set
at the configured maximum, `getRunnerWorker` does not start a new worker and
attaches the request to an in-flight worker whose creation timestamp is
maximal — the newest, not the oldest — whichever order the map iteration
visits the workers in. -/
theorem C2_attaches_to_newest {μ : Type} (maxWorker : Nat) (st : RState μ)
    (fresh w : RWorker μ) (hcap : maxWorker ≤ st.workers.length)
    (hsel : (getRunnerWorker maxWorker st fresh).1 = some w) :
    (getRunnerWorker maxWorker st fresh).2 = (st, false) ∧
      w ∈ st.workers ∧ ∀ x ∈ st.workers, x.creat ≤ w.creat := by
  have hge : st.workers.length ≥ maxWorker := hcap
  unfold getRunnerWorker at hsel ⊢
  simp only [hge, if_true] at hsel ⊢
  obtain ⟨hmem, hall, _⟩ := selectGo_spec st.workers none w hsel
  refine ⟨trivial, ?_, hall⟩
  cases hmem with
  | inl he => cases he
  | inr hm => exact hm

/-- Witness for C2 (amended) at the concrete two-worker state of the
counterexample. -/
theorem C2_attaches_to_newest_witness :
    ((getRunnerWorker 2 (⟨[⟨1, 1, 10, []⟩, ⟨2, 2, 11, []⟩], none⟩ : RState Nat)
        ⟨3, 3, 12, []⟩).2 = (⟨[⟨1, 1, 10, []⟩, ⟨2, 2, 11, []⟩], none⟩, false)) ∧
    (⟨2, 2, 11, []⟩ : RWorker Nat) ∈ [⟨1, 1, 10, []⟩, (⟨2, 2, 11, []⟩ : RWorker Nat)] ∧
    ∀ x ∈ [(⟨1, 1, 10, []⟩ : RWorker Nat), ⟨2, 2, 11, []⟩], x.creat ≤ (2 : Int) := by
  have h := C2_attaches_to_newest 2
    (⟨[⟨1, 1, 10, []⟩, ⟨2, 2, 11, []⟩], none⟩ : RState Nat)
    ⟨3, 3, 12, []⟩ ⟨2, 2, 11, []⟩ (by decide) (by decide)
  exact h

/-- Claim C3: starting from the empty in-flight set, no sequence of
`getRunnerWorker`/`doneForWorker` operations ever pushes the in-flight
worker count above the configured maximum; at capacity `getRunnerWorker`
neither inserts nor starts a worker, and `doneForWorker` only removes. -/
theorem C3_worker_bound {μ : Type} (maxWorker : Nat) (ops : List (ROp μ)) :
    (rRun maxWorker ops).workers.length ≤ maxWorker ∧
    (∀ (st : RState μ) (fresh : RWorker μ), maxWorker ≤ st.workers.length →
      (getRunnerWorker maxWorker st fresh).2.1 = st ∧
      (getRunnerWorker maxWorker st fresh).2.2 = false) ∧
    (∀ (st : RState μ) (w : RWorker μ),
      (doneForWorker st w).workers.length ≤ st.workers.length) := by
  refine ⟨rRun_go_bound maxWorker ops ⟨[], none⟩ (by simp), ?_, ?_⟩
  · intro st fresh hcap
    have hge : st.workers.length ≥ maxWorker := hcap
    unfold getRunnerWorker
    simp [hge]
  · intro st w
    exact List.length_filter_le _ _

/-- Witness for C3: a burst of three acquisitions against capacity 2 followed
by one completion, applied at concrete workers. -/
theorem C3_worker_bound_witness :
    ((rRun 2 [ROp.get ⟨1, 1, 10, [("ost", [5])]⟩, ROp.get ⟨2, 2, 11, []⟩,
        ROp.get ⟨3, 3, 12, []⟩, ROp.done ⟨1, 1, 10, [("ost", [5])]⟩]).workers.length ≤ 2) ∧
    ((getRunnerWorker 2 (⟨[⟨1, 1, 10, []⟩, ⟨2, 2, 11, []⟩], none⟩ : RState Nat)
        ⟨3, 3, 12, []⟩).2.1 = ⟨[⟨1, 1, 10, []⟩, ⟨2, 2, 11, []⟩], none⟩) := by
  have h := C3_worker_bound (μ := Nat) 2
    [ROp.get ⟨1, 1, 10, [("ost", [5])]⟩, ROp.get ⟨2, 2, 11, []⟩,
     ROp.get ⟨3, 3, 12, []⟩, ROp.done ⟨1, 1, 10, [("ost", [5])]⟩]
  exact ⟨h.1, (h.2.1 (⟨[⟨1, 1, 10, []⟩, ⟨2, 2, 11, []⟩], none⟩ : RState Nat)
    ⟨3, 3, 12, []⟩ (by decide)).1⟩

/-! ## Claim theorems: parseFileElements -/

/-- Claim C10: `parseFileElements` never takes its error branch — splitting a
path on `"/"` always yields at least one element, so `pathLen < 1` is
unreachable — and it is total exactly when the path has at least
`directoryDepth + 2` slash-separated elements; on shorter paths the
`nodeName` index `pathLen - 2 - directoryDepth` is out of range (a Go panic)
instead of the documented error. -/
theorem C10_parseFileElements_total (path : String) (directoryDepth : Nat) :
    isErrRes (parseFileElements path directoryDepth) = false ∧
    (parseFileElements path directoryDepth).isNone =
      decide ((splitChar '/' path.toList).length < directoryDepth + 2) := by
  have hpos : 0 < (splitChar '/' path.toList).length := splitChar_length_pos _ _
  unfold parseFileElements
  simp only [List.length_map]
  rw [if_neg (by omega)]
  by_cases hc : (0 : Int) ≤ (((splitChar '/' path.toList).length : Int) - 2 - (directoryDepth : Int)) ∧
      (((splitChar '/' path.toList).length : Int) - 2 - (directoryDepth : Int)) <
        ((splitChar '/' path.toList).length : Int)
  · rw [if_pos hc]
    refine ⟨rfl, ?_⟩
    obtain ⟨hc1, _⟩ := hc
    simp only [Option.isNone_some]
    symm
    rw [decide_eq_false_iff_not]
    omega
  · rw [if_neg hc]
    refine ⟨rfl, ?_⟩
    simp only [Option.isNone_none]
    symm
    rw [decide_eq_true_eq]
    omega

/-! ## Claim theorems: histogram rows (C7) -/

/-- Claim C7 (code bug evidence): `splitBRWStats` is not total on rows with
at least one but fewer than six fields — a row with exactly one field makes
the `len(fields) >= 1` branch read `fields[1]`, an index out of range
(embedded `none`, a Go runtime panic) — while a row with two to five fields
does degrade to a single read-only sample valued by the second field of the row,
and a row with six or more fields yields one read and one write sample. -/
theorem C7_one_field_row_panics :
    (splitBRWStats "ost" "OST0" "disk I/O size ios % cum %\n128:"
      ⟨"brw_stats", "lustre_disk_io_size", "ost", "p", diskIOSizeHelp, false⟩
      ["component", "target", "operation", "size"] "" "" = none) ∧
    (splitBRWStats "ost" "OST0" "disk I/O size ios % cum %\n4K: 7"
      ⟨"brw_stats", "lustre_disk_io_size", "ost", "p", diskIOSizeHelp, false⟩
      ["component", "target", "operation", "size"] "" "" =
      some ([⟨["component", "target", "operation", "size"], ["ost", "OST0", "read", "4096"],
        "lustre_disk_io_size", diskIOSizeHelp, 7⟩], none)) ∧
    (splitBRWStats "ost" "OST0" "disk I/O size ios % cum %\n4K: 7 1 1 | 9 2 2"
      ⟨"brw_stats", "lustre_disk_io_size", "ost", "p", diskIOSizeHelp, false⟩
      ["component", "target", "operation", "size"] "" "" =
      some ([⟨["component", "target", "operation", "size"], ["ost", "OST0", "read", "4096"],
        "lustre_disk_io_size", diskIOSizeHelp, 7⟩,
        ⟨["component", "target", "operation", "size"], ["ost", "OST0", "write", "4096"],
        "lustre_disk_io_size", diskIOSizeHelp, 9⟩], none)) := by
  decide

/-! ## Claim theorems: I/O-size positional extraction (C8) -/

/-- Claim C8 counterexample: on a stats file consisting of the line given in the claim
`write_bytes: { samples: 10, unit: bytes, min: 1, max: 5, sum: 20 }`, the
capture pattern `"write_bytes .*"` matches nothing — a colon, not the
pattern's space, follows the field name — so the extraction emits zero
samples for all four positions instead of the claimed values 1, 5, 10, 20. -/
theorem C8_counterexample :
    (getStatsIOMetrics
      "write_bytes: \x7b samples: 10, unit: bytes, min: 1, max: 5, sum: 20 \x7d"
      "ost" "OST0" ⟨"stats", "n", "ost", "p", writeMinimumHelp, false⟩
      ["component", "target"] = some ([], none)) ∧
    (getStatsIOMetrics
      "write_bytes: \x7b samples: 10, unit: bytes, min: 1, max: 5, sum: 20 \x7d"
      "ost" "OST0" ⟨"stats", "n", "ost", "p", writeMaximumHelp, false⟩
      ["component", "target"] = some ([], none)) ∧
    (getStatsIOMetrics
      "write_bytes: \x7b samples: 10, unit: bytes, min: 1, max: 5, sum: 20 \x7d"
      "ost" "OST0" ⟨"stats", "n", "ost", "p", writeSamplesHelp, false⟩
      ["component", "target"] = some ([], none)) ∧
    (getStatsIOMetrics
      "write_bytes: \x7b samples: 10, unit: bytes, min: 1, max: 5, sum: 20 \x7d"
      "ost" "OST0" ⟨"stats", "n", "ost", "p", writeTotalHelp, false⟩
      ["component", "target"] = some ([], none)) := by
  decide

/-- Claim C8 (amended): on the space-separated stats line the parser is built
for, `write_bytes 10 samples [bytes] 1 5 20`, the positional extraction
emits value 1 for the metric mapped to "minimum", 5 for "maximum", 10 for
"samples" and 20 for "total" (one sample each); the colon-brace form of the
claim is the job_stats shape and matches nothing here. -/
theorem C8_positional_extraction :
    (getStatsIOMetrics "write_bytes 10 samples [bytes] 1 5 20" "ost" "OST0"
      ⟨"stats", "n", "ost", "p", writeMinimumHelp, false⟩ ["component", "target"] =
      some ([⟨["component", "target"], ["ost", "OST0"], "n", writeMinimumHelp, 1⟩], none)) ∧
    (getStatsIOMetrics "write_bytes 10 samples [bytes] 1 5 20" "ost" "OST0"
      ⟨"stats", "n", "ost", "p", writeMaximumHelp, false⟩ ["component", "target"] =
      some ([⟨["component", "target"], ["ost", "OST0"], "n", writeMaximumHelp, 5⟩], none)) ∧
    (getStatsIOMetrics "write_bytes 10 samples [bytes] 1 5 20" "ost" "OST0"
      ⟨"stats", "n", "ost", "p", writeSamplesHelp, false⟩ ["component", "target"] =
      some ([⟨["component", "target"], ["ost", "OST0"], "n", writeSamplesHelp, 10⟩], none)) ∧
    (getStatsIOMetrics "write_bytes 10 samples [bytes] 1 5 20" "ost" "OST0"
      ⟨"stats", "n", "ost", "p", writeTotalHelp, false⟩ ["component", "target"] =
      some ([⟨["component", "target"], ["ost", "OST0"], "n", writeTotalHelp, 20⟩], none)) := by
  decide

/-! ## Claim theorems: error scope of a collection pass (C4) -/

theorem collectGo_append (g : FileGlob) (rd : String → Option String)
    (basePath : String) (ms1 : List Metric) (st0 : PCtx) (acc0 : List Sample)
    (st1 : PCtx) (acc1 : List Sample)
    (h1 : collectGo g rd basePath ms1 st0 acc0 = some (st1, acc1, none))
    (ms2 : List Metric) :
    collectGo g rd basePath (ms1 ++ ms2) st0 acc0 = collectGo g rd basePath ms2 st1 acc1 := by
  induction ms1 generalizing st0 acc0 with
  | nil =>
    simp only [collectGo] at h1
    injection h1 with h1
    injection h1 with ha hb
    injection hb with hb hc
    subst ha; subst hb
    simp
  | cons m t ih =>
    simp only [collectGo, List.cons_append] at h1 ⊢
    cases hg : g (joinPath basePath m.path m.filename) with
    | none => rw [hg] at h1; simp at h1
    | some paths =>
      rw [hg] at h1
      dsimp only at h1 ⊢
      cases hp : collectPathsGo rd m (countSlash m.filename) paths st0 acc0 with
      | none => rw [hp] at h1; simp at h1
      | some r =>
        obtain ⟨st', acc', err⟩ := r
        rw [hp] at h1
        cases err with
        | none =>
          dsimp only at h1 ⊢
          exact ih st' acc' h1
        | some e => simp at h1

/-- Claim C4 counterexample: one source collecting two sibling scalar files,
where the first file's content `"abc"` fails numeric parsing: `collect`
aborts the whole source pass — the well-formed sibling `"42"` contributes
nothing — whereas the claim requires sibling files of the same source to
still produce their samples. -/
theorem C4_counterexample :
    collect
      (fun p => if p = "root/obdfilter/*/filesfree" then
        some ["root/obdfilter/na/filesfree", "root/obdfilter/nb/filesfree"] else some [])
      (fun p => if p = "root/obdfilter/na/filesfree" then some "abc"
        else if p = "root/obdfilter/nb/filesfree" then some "42" else none)
      ⟨"root", [⟨"filesfree", "lustre_free_files", "ost", "obdfilter/*", "freeHelp", false⟩]⟩ =
      some (⟨[]⟩, [], some "parse error") := by
  decide

/-- Claim C4 (amended): a numeric parse error aborts the rest of that
source's collection pass — every metric and file after the failing one in the
source's iteration order contributes nothing, while samples accumulated
before the error are kept on the context — and sibling sources are
unaffected: each source context collects independently, so the results of
the other sources are exactly their own `collect` runs. -/
theorem C4_parse_error_aborts_source (g : FileGlob) (rd : String → Option String)
    (basePath : String) (ms1 ms2 : List Metric) (m : Metric)
    (st1 st2 : PCtx) (acc1 acc2 : List Sample) (paths : List String) (e : String)
    (h1 : collectGo g rd basePath ms1 ⟨[]⟩ [] = some (st1, acc1, none))
    (hg : g (joinPath basePath m.path m.filename) = some paths)
    (hp : collectPathsGo rd m (countSlash m.filename) paths st1 acc1 = some (st2, acc2, some e)) :
    collectGo g rd basePath (ms1 ++ m :: ms2) ⟨[]⟩ [] = some (st2, acc2, some e) ∧
    (∀ (srcs1 srcs2 : List SourceCfg) (s : SourceCfg),
      runSources g rd (srcs1 ++ s :: srcs2) =
        runSources g rd srcs1 ++ collect g rd s :: runSources g rd srcs2) := by
  constructor
  · rw [collectGo_append g rd basePath ms1 ⟨[]⟩ [] st1 acc1 h1 (m :: ms2)]
    simp only [collectGo]
    simp only [hg]
    simp only [hp]
  · intro srcs1 srcs2 s
    simp [runSources]

/-- Witness for C4 (amended): a source whose first metric file parses (value
7), whose second metric file is malformed, and whose third metric is never
reached; the pass ends in the parse error keeping only the first sample, and
a sibling source's run is its own `collect`. -/
theorem C4_parse_error_aborts_source_witness :
    collectGo
      (fun p => if p = "root/obdfilter/*/kbytesfree" then some ["root/obdfilter/na/kbytesfree"]
        else if p = "root/obdfilter/*/filesfree" then some ["root/obdfilter/na/filesfree"]
        else if p = "root/obdfilter/*/filestotal" then some ["root/obdfilter/na/filestotal"]
        else some [])
      (fun p => if p = "root/obdfilter/na/kbytesfree" then some "7"
        else if p = "root/obdfilter/na/filesfree" then some "abc"
        else if p = "root/obdfilter/na/filestotal" then some "9" else none)
      "root"
      ([⟨"kbytesfree", "lustre_kbytes_free", "ost", "obdfilter/*", "kbHelp", false⟩] ++
        ⟨"filesfree", "lustre_free_files", "ost", "obdfilter/*", "freeHelp", false⟩ ::
        [⟨"filestotal", "lustre_files_total", "ost", "obdfilter/*", "totHelp", false⟩])
      ⟨[]⟩ [] =
      some (⟨[]⟩, [⟨["component", "target"], ["ost", "na"], "lustre_kbytes_free", "kbHelp", 7⟩],
        some "parse error") := by
  have h := C4_parse_error_aborts_source
    (fun p => if p = "root/obdfilter/*/kbytesfree" then some ["root/obdfilter/na/kbytesfree"]
      else if p = "root/obdfilter/*/filesfree" then some ["root/obdfilter/na/filesfree"]
      else if p = "root/obdfilter/*/filestotal" then some ["root/obdfilter/na/filestotal"]
      else some [])
    (fun p => if p = "root/obdfilter/na/kbytesfree" then some "7"
      else if p = "root/obdfilter/na/filesfree" then some "abc"
      else if p = "root/obdfilter/na/filestotal" then some "9" else none)
    "root"
    [⟨"kbytesfree", "lustre_kbytes_free", "ost", "obdfilter/*", "kbHelp", false⟩]
    [⟨"filestotal", "lustre_files_total", "ost", "obdfilter/*", "totHelp", false⟩]
    ⟨"filesfree", "lustre_free_files", "ost", "obdfilter/*", "freeHelp", false⟩
    ⟨[]⟩ ⟨[]⟩
    [⟨["component", "target"], ["ost", "na"], "lustre_kbytes_free", "kbHelp", 7⟩]
    [⟨["component", "target"], ["ost", "na"], "lustre_kbytes_free", "kbHelp", 7⟩]
    ["root/obdfilter/na/filesfree"] "parse error"
    (by decide) (by decide) (by decide)
  exact h.1

/-! ## Absent-counter preservation through job block parsing (C5) -/

theorem getD_replicate (n j : Nat) (a d : Int) (hj : j < n) :
    (List.replicate n a).getD j d = a := by
  induction n generalizing j with
  | zero => omega
  | succ n ih =>
    cases j with
    | zero => rfl
    | succ j => exact ih j (by omega)

theorem setScalarVal_ok_shape (js js' : jobState) (line : String) (i : Nat)
    (h : setScalarVal js line i = Except.ok js') :
    ∃ n, js' = { js with vals := js.vals.set i n } := by
  unfold setScalarVal at h
  cases hp : parsingInt64 line with
  | none => rw [hp] at h; simp at h
  | some n => rw [hp] at h; exact ⟨n, (Except.ok.inj h).symm⟩

theorem applyLine_vals_preserved (js js' : jobState) (line : String) (j : Nat)
    (hk : lineKey line ≠ some (jobStateKeys.getD j ""))
    (h : applyLine js line = Except.ok js') :
    js'.vals.getD j 0 = js.vals.getD j 0 := by
  unfold applyLine at h
  by_cases hidx : strIndex line ":" < 1
  · rw [if_pos hidx] at h
    cases Except.ok.inj h
    rfl
  · rw [if_neg hidx] at h
    have hlk : lineKey line = some (goTrim (goTake line (strIndex line ":").toNat)) := by
      unfold lineKey
      rw [if_neg hidx]
    dsimp only at h
    split at h
    all_goals first
    | (cases Except.ok.inj h; rfl)
    | (split at h <;>
        first
        | (injection h; done)
        | (injection h with h2; subst h2; rfl))
    | (obtain ⟨n, hjs⟩ := setScalarVal_ok_shape _ _ _ _ h
       subst hjs
       rename_i heq
       refine getD_set_ne _ _ _ _ ?_
       intro e
       apply hk
       rw [hlk, heq, ← e]
       decide)

theorem applyLine_writebytes_preserved (js js' : jobState) (line : String)
    (hk : lineKey line ≠ some "write_bytes")
    (h : applyLine js line = Except.ok js') :
    js'.writebytes = js.writebytes := by
  unfold applyLine at h
  by_cases hidx : strIndex line ":" < 1
  · rw [if_pos hidx] at h
    cases Except.ok.inj h
    rfl
  · rw [if_neg hidx] at h
    have hlk : lineKey line = some (goTrim (goTake line (strIndex line ":").toNat)) := by
      unfold lineKey
      rw [if_neg hidx]
    dsimp only at h
    split at h
    all_goals first
    | (cases Except.ok.inj h; rfl)
    | (obtain ⟨n, hjs⟩ := setScalarVal_ok_shape _ _ _ _ h; subst hjs; rfl)
    | (split at h <;>
        first
        | (injection h; done)
        | (injection h with h2; subst h2; rfl))
    | (rename_i heq
       exfalso
       apply hk
       rw [hlk, heq])

theorem applyLines_vals_preserved (lines : List String) (js js' : jobState) (j : Nat)
    (hk : ∀ l ∈ lines, lineKey l ≠ some (jobStateKeys.getD j ""))
    (h : applyLines js lines = Except.ok js') :
    js'.vals.getD j 0 = js.vals.getD j 0 := by
  induction lines generalizing js with
  | nil =>
    simp only [applyLines] at h
    cases Except.ok.inj h
    rfl
  | cons l ls ih =>
    simp only [applyLines] at h
    cases ha : applyLine js l with
    | error e => rw [ha] at h; simp at h
    | ok js1 =>
      rw [ha] at h
      have h1 := applyLine_vals_preserved js js1 l j (hk l (List.mem_cons_self l ls)) ha
      have h2 := ih js1 (fun x hx => hk x (List.mem_cons_of_mem l hx)) h
      rw [h2, h1]

theorem applyLines_writebytes_preserved (lines : List String) (js js' : jobState)
    (hk : ∀ l ∈ lines, lineKey l ≠ some "write_bytes")
    (h : applyLines js lines = Except.ok js') :
    js'.writebytes = js.writebytes := by
  induction lines generalizing js with
  | nil =>
    simp only [applyLines] at h
    cases Except.ok.inj h
    rfl
  | cons l ls ih =>
    simp only [applyLines] at h
    cases ha : applyLine js l with
    | error e => rw [ha] at h; simp at h
    | ok js1 =>
      rw [ha] at h
      have h1 := applyLine_writebytes_preserved js js1 l (hk l (List.mem_cons_self l ls)) ha
      have h2 := ih js1 (fun x hx => hk x (List.mem_cons_of_mem l hx)) h
      rw [h2, h1]

theorem parsingFromText_shape (content : String) (js : jobState)
    (hp : parsingFromText content = some (Except.ok js)) :
    ∃ jid, applyLines { jobStateInitVal with jobid := jid }
      (goSplitC '\n' content).tail = Except.ok js := by
  unfold parsingFromText at hp
  have hlen : ¬((goSplitC '\n' content).length < 1) := by
    have := splitChar_length_pos '\n' content.toList
    simp only [goSplitC, List.length_map]
    omega
  rw [if_neg hlen] at hp
  cases hj : getJobID ((goSplitC '\n' content).headD "") with
  | none => rw [hj] at hp; simp at hp
  | some r =>
    rw [hj] at hp
    cases r with
    | error e => simp at hp
    | ok jid => exact ⟨jid, Option.some.inj hp⟩

theorem opMetrics_skip_absent (js : jobState) (j : Nat) (nodeType nodeName : String)
    (m : Metric) (hj : j < 22) (hv : js.vals.getD j 0 = -1) :
    (getJobStatsOperationMetrics [js] nodeType nodeName m ["component", "target", "jobid"]).all
      (fun s => !(hasLabelVal s "operation" (jobStateKeys.getD j ""))) = true := by
  have hinj : ∀ a, a < 22 → ∀ b, b < 22 →
      jobStateKeys.getD a "" = jobStateKeys.getD b "" → a = b := by decide
  rw [List.all_eq_true]
  intro x hx
  simp only [getJobStatsOperationMetrics, List.flatMap_cons, List.flatMap_nil,
    List.append_nil, List.mem_filterMap, List.mem_range] at hx
  obtain ⟨j2, hj2, hx⟩ := hx
  have hj2b : j2 < 22 := hj2
  by_cases hneg : js.vals.getD j2 0 < 0
  · rw [if_pos hneg] at hx
    cases hx
  · rw [if_neg hneg] at hx
    injection hx with hx
    subst hx
    have hne : j2 ≠ j := by
      intro e
      rw [e, hv] at hneg
      exact hneg (by norm_num)
    have hkne : jobStateKeys.getD j2 "" ≠ jobStateKeys.getD j "" :=
      fun he => hne (hinj j2 hj2b j hj he)
    simp [hasLabelVal, mkMetric]
    simpa [List.getD_eq_getElem?_getD] using hkne

/-- Claim C5 counterexample: the job block `job_id: a` with only an `open`
counter omits `write_bytes`, and its parsed state holds the sentinel `-1`
there; yet the I/O projection for the metric mapped to write-samples still
emits a sample for that (job, counter) — carrying the sentinel value `-1` —
where the claim requires no sample at all for an absent counter. -/
theorem C5_counterexample :
    (parsingFromText "job_id: a\n  open: \x7b samples: 3, unit: reqs \x7d" =
      some (Except.ok ⟨"a", [-1, -1, -1, -1], [-1, -1, -1, -1],
        [3, -1, -1, -1, -1, -1, -1, -1, -1, -1, -1, -1, -1, -1, -1, -1, -1, -1, -1, -1, -1, -1]⟩)) ∧
    (getJobStatsIOMetrics
      [⟨"a", [-1, -1, -1, -1], [-1, -1, -1, -1],
        [3, -1, -1, -1, -1, -1, -1, -1, -1, -1, -1, -1, -1, -1, -1, -1, -1, -1, -1, -1, -1, -1]⟩]
      "ost" "OST0"
      ⟨"job_stats", "lustre_job_write_samples_total", "ost", "p", writeSamplesHelp, false⟩
      ["component", "target", "jobid"] =
      [⟨["component", "target", "jobid"], ["ost", "OST0", "a"],
        "lustre_job_write_samples_total", writeSamplesHelp, -1⟩]) := by
  decide

/-- Claim C5 (amended): a scalar operation counter whose key line is absent
from a parsed job block stays at the negative sentinel `-1` and is skipped by
the operation-metrics emission — no sample labeled with that operation (in
particular none with `operation=punch` for a block omitting `punch`) — but
the `read_bytes`/`write_bytes` tuples are *not* skipped when absent: the I/O
emission has no sentinel check and emits the value `-1` itself. -/
theorem C5_absent_counter_handling (content : String) (js : jobState) (j : Nat)
    (m : Metric) (nodeType nodeName : String)
    (hj : j < 22)
    (hp : parsingFromText content = some (Except.ok js))
    (hk : ∀ l ∈ (goSplitC '\n' content).tail, lineKey l ≠ some (jobStateKeys.getD j ""))
    (hw : ∀ l ∈ (goSplitC '\n' content).tail, lineKey l ≠ some "write_bytes") :
    js.vals.getD j 0 = -1 ∧
    (getJobStatsOperationMetrics [js] nodeType nodeName m ["component", "target", "jobid"]).all
      (fun s => !(hasLabelVal s "operation" (jobStateKeys.getD j ""))) = true ∧
    getJobStatsIOMetrics [js] nodeType nodeName { m with helpText := writeSamplesHelp }
      ["component", "target", "jobid"] =
      [mkMetric { m with helpText := writeSamplesHelp } ["component", "target", "jobid"]
        [nodeType, nodeName, js.jobid] ((-1 : Int) : ℚ) "" ""] := by
  obtain ⟨jid, hsh⟩ := parsingFromText_shape content js hp
  have hv : js.vals.getD j 0 = -1 :=
    (applyLines_vals_preserved _ _ _ j hk hsh).trans (getD_replicate 22 j (-1) 0 hj)
  refine ⟨hv, opMetrics_skip_absent js j nodeType nodeName m hj hv, ?_⟩
  have hwb : js.writebytes = List.replicate 4 (-1) :=
    applyLines_writebytes_preserved _ _ _ hw hsh
  have hio : getJobStatsIOMetrics [js] nodeType nodeName
      { m with helpText := writeSamplesHelp } ["component", "target", "jobid"] =
      [mkMetric { m with helpText := writeSamplesHelp } ["component", "target", "jobid"]
        [nodeType, nodeName, js.jobid] ((js.writebytes.getD 0 0 : Int) : ℚ) "" ""] := rfl
  rw [hio, hwb]
  rfl

/-- Witness for C5 (amended) at the counterexample's job block, with
`j = 16` (the `punch` slot). -/
theorem C5_absent_counter_handling_witness :
    ((⟨"a", [-1, -1, -1, -1], [-1, -1, -1, -1],
        [3, -1, -1, -1, -1, -1, -1, -1, -1, -1, -1, -1, -1, -1, -1, -1, -1, -1, -1, -1, -1, -1]⟩ :
      jobState).vals.getD 16 0 = -1) ∧
    ((getJobStatsOperationMetrics
      [⟨"a", [-1, -1, -1, -1], [-1, -1, -1, -1],
        [3, -1, -1, -1, -1, -1, -1, -1, -1, -1, -1, -1, -1, -1, -1, -1, -1, -1, -1, -1, -1, -1]⟩]
      "ost" "OST0" ⟨"job_stats", "lustre_job_stats_total", "ost", "p", writeSamplesHelp, true⟩
      ["component", "target", "jobid"]).all
      (fun s => !(hasLabelVal s "operation" (jobStateKeys.getD 16 ""))) = true) ∧
    (getJobStatsIOMetrics
      [⟨"a", [-1, -1, -1, -1], [-1, -1, -1, -1],
        [3, -1, -1, -1, -1, -1, -1, -1, -1, -1, -1, -1, -1, -1, -1, -1, -1, -1, -1, -1, -1, -1]⟩]
      "ost" "OST0"
      ⟨"job_stats", "lustre_job_stats_total", "ost", "p", writeSamplesHelp, true⟩
      ["component", "target", "jobid"] =
      [mkMetric ⟨"job_stats", "lustre_job_stats_total", "ost", "p", writeSamplesHelp, true⟩
        ["component", "target", "jobid"] ["ost", "OST0", "a"] ((-1 : Int) : ℚ) "" ""]) :=
  C5_absent_counter_handling "job_id: a\n  open: \x7b samples: 3, unit: reqs \x7d"
    ⟨"a", [-1, -1, -1, -1], [-1, -1, -1, -1],
      [3, -1, -1, -1, -1, -1, -1, -1, -1, -1, -1, -1, -1, -1, -1, -1, -1, -1, -1, -1, -1, -1]⟩
    16 ⟨"job_stats", "lustre_job_stats_total", "ost", "p", writeSamplesHelp, true⟩
    "ost" "OST0" (by decide) (by decide) (by decide) (by decide)

/-! ## Claim theorems: job block isolation (C6) and memoization (C9) -/

/-- Claim C6: when a `job_stats` file splits into several job blocks and one
block fails to parse (no `job_id:` in its first line, or a malformed counter
line), `parseJobStatsText` logs one warning, skips only that block, and still
yields the job states of every well-formed sibling: for a file with three
blocks whose second lacks its `job_id:` line, exactly the entries of blocks
one and three result (and the per-pass cache and samples are built from
them). -/
theorem C6_partial_block_isolation (rd : String → Option String) (st : PCtx)
    (path content hdr b1 b2 b3 : String) (js1 js3 : jobState) (m : Metric)
    (nodeType nodeName : String)
    (hc : lookupStr st.filesJobStats path = none)
    (hf : rd path = some content)
    (hs : goSplit content "- " = [hdr, b1, b2, b3])
    (h1 : parsingFromText b1 = some (Except.ok js1))
    (h2 : ∃ e, parsingFromText b2 = some (Except.error e))
    (h3 : parsingFromText b3 = some (Except.ok js3)) :
    parseJobStatsText rd st path m ["component", "target", "jobid"] nodeType nodeName =
      some ⟨⟨st.filesJobStats ++ [(path, [js1, js3])]⟩, [path], 1,
        jobProjection m ["component", "target", "jobid"] nodeType nodeName [js1, js3],
        none⟩ := by
  obtain ⟨e2, h2⟩ := h2
  unfold parseJobStatsText
  rw [hc]
  dsimp only
  rw [hf]
  dsimp only
  rw [hs]
  rw [if_neg (by norm_num)]
  simp only [List.tail_cons, parseBlocks, h1, h2, h3]
  simp

/-- Witness for C6 at a concrete three-block file whose middle block starts
with `snapshot_time:` instead of a `job_id:` line. -/
theorem C6_partial_block_isolation_witness :
    parseJobStatsText
      (fun p => if p = "proc/a/job_stats" then
        some ("job_stats:\n- job_id: a\n  open: \x7b samples: 3, unit: reqs \x7d\n- snapshot_time: 5\n  open: \x7b samples: 4, unit: reqs \x7d\n- job_id: c\n  open: \x7b samples: 7, unit: reqs \x7d")
        else none)
      ⟨[]⟩ "proc/a/job_stats"
      ⟨"job_stats", "lustre_job_stats_total", "ost", "p", "jobHelp", true⟩
      ["component", "target", "jobid"] "ost" "OST0" =
      some ⟨⟨[("proc/a/job_stats",
        [⟨"a", [-1, -1, -1, -1], [-1, -1, -1, -1],
          [3, -1, -1, -1, -1, -1, -1, -1, -1, -1, -1, -1, -1, -1, -1, -1, -1, -1, -1, -1, -1, -1]⟩,
         ⟨"c", [-1, -1, -1, -1], [-1, -1, -1, -1],
          [7, -1, -1, -1, -1, -1, -1, -1, -1, -1, -1, -1, -1, -1, -1, -1, -1, -1, -1, -1, -1, -1]⟩])]⟩,
        ["proc/a/job_stats"], 1,
        jobProjection ⟨"job_stats", "lustre_job_stats_total", "ost", "p", "jobHelp", true⟩
          ["component", "target", "jobid"] "ost" "OST0"
          [⟨"a", [-1, -1, -1, -1], [-1, -1, -1, -1],
            [3, -1, -1, -1, -1, -1, -1, -1, -1, -1, -1, -1, -1, -1, -1, -1, -1, -1, -1, -1, -1, -1]⟩,
           ⟨"c", [-1, -1, -1, -1], [-1, -1, -1, -1],
            [7, -1, -1, -1, -1, -1, -1, -1, -1, -1, -1, -1, -1, -1, -1, -1, -1, -1, -1, -1, -1, -1]⟩],
        none⟩ := by
  have h := C6_partial_block_isolation
    (fun p => if p = "proc/a/job_stats" then
      some ("job_stats:\n- job_id: a\n  open: \x7b samples: 3, unit: reqs \x7d\n- snapshot_time: 5\n  open: \x7b samples: 4, unit: reqs \x7d\n- job_id: c\n  open: \x7b samples: 7, unit: reqs \x7d")
      else none)
    ⟨[]⟩ "proc/a/job_stats"
    ("job_stats:\n- job_id: a\n  open: \x7b samples: 3, unit: reqs \x7d\n- snapshot_time: 5\n  open: \x7b samples: 4, unit: reqs \x7d\n- job_id: c\n  open: \x7b samples: 7, unit: reqs \x7d")
    "job_stats:\n" "job_id: a\n  open: \x7b samples: 3, unit: reqs \x7d\n"
    "snapshot_time: 5\n  open: \x7b samples: 4, unit: reqs \x7d\n"
    "job_id: c\n  open: \x7b samples: 7, unit: reqs \x7d"
    ⟨"a", [-1, -1, -1, -1], [-1, -1, -1, -1],
      [3, -1, -1, -1, -1, -1, -1, -1, -1, -1, -1, -1, -1, -1, -1, -1, -1, -1, -1, -1, -1, -1]⟩
    ⟨"c", [-1, -1, -1, -1], [-1, -1, -1, -1],
      [7, -1, -1, -1, -1, -1, -1, -1, -1, -1, -1, -1, -1, -1, -1, -1, -1, -1, -1, -1, -1, -1]⟩
    ⟨"job_stats", "lustre_job_stats_total", "ost", "p", "jobHelp", true⟩
    "ost" "OST0" (by decide) (by decide) (by decide) (by decide)
    ⟨"can not found jobid in content", by decide⟩ (by decide)
  exact h

/-- Claim C9: within one collection pass, a given path's job_stats text is
parsed at most once. The first `parseJobStatsText` call reads the file once,
parses its blocks and stores the resulting job states in the per-context
cache; a subsequent call for the same path — with any metric definition —
performs no read and no parse, leaves the cache unchanged, and projects over
the identical cached job states. -/
theorem C9_jobstats_memoized (rd : String → Option String) (st : PCtx)
    (path content : String) (jss : List jobState) (warns : Nat)
    (m1 m2 : Metric) (bl1 bl2 : List String) (nt1 nn1 nt2 nn2 : String)
    (hc : lookupStr st.filesJobStats path = none)
    (hf : rd path = some content)
    (hlen : 1 < (goSplit content "- ").length)
    (hp : parseBlocks (goSplit content "- ").tail [] 0 = some (jss, warns)) :
    parseJobStatsText rd st path m1 bl1 nt1 nn1 =
      some ⟨⟨st.filesJobStats ++ [(path, jss)]⟩, [path], warns,
        jobProjection m1 bl1 nt1 nn1 jss, none⟩ ∧
    parseJobStatsText rd ⟨st.filesJobStats ++ [(path, jss)]⟩ path m2 bl2 nt2 nn2 =
      some ⟨⟨st.filesJobStats ++ [(path, jss)]⟩, [], 0,
        jobProjection m2 bl2 nt2 nn2 jss, none⟩ := by
  constructor
  · unfold parseJobStatsText
    rw [hc]
    dsimp only
    rw [hf]
    dsimp only
    rw [if_neg (by omega)]
    rw [hp]
  · unfold parseJobStatsText
    rw [lookupStr_append_self st.filesJobStats path jss hc]

/-- Witness for C9 at the concrete three-block file of the C6 witness, first
under an operation-metrics definition and then under an I/O definition. -/
theorem C9_jobstats_memoized_witness :
    (parseJobStatsText
      (fun p => if p = "proc/a/job_stats" then
        some ("job_stats:\n- job_id: a\n  open: \x7b samples: 3, unit: reqs \x7d\n- snapshot_time: 5\n  open: \x7b samples: 4, unit: reqs \x7d\n- job_id: c\n  open: \x7b samples: 7, unit: reqs \x7d")
        else none)
      ⟨[]⟩ "proc/a/job_stats"
      ⟨"job_stats", "lustre_job_stats_total", "ost", "p", "jobHelp", true⟩
      ["component", "target", "jobid"] "ost" "OST0" =
      some ⟨⟨[("proc/a/job_stats",
        [⟨"a", [-1, -1, -1, -1], [-1, -1, -1, -1],
          [3, -1, -1, -1, -1, -1, -1, -1, -1, -1, -1, -1, -1, -1, -1, -1, -1, -1, -1, -1, -1, -1]⟩,
         ⟨"c", [-1, -1, -1, -1], [-1, -1, -1, -1],
          [7, -1, -1, -1, -1, -1, -1, -1, -1, -1, -1, -1, -1, -1, -1, -1, -1, -1, -1, -1, -1, -1]⟩])]⟩,
        ["proc/a/job_stats"], 1,
        jobProjection ⟨"job_stats", "lustre_job_stats_total", "ost", "p", "jobHelp", true⟩
          ["component", "target", "jobid"] "ost" "OST0"
          [⟨"a", [-1, -1, -1, -1], [-1, -1, -1, -1],
            [3, -1, -1, -1, -1, -1, -1, -1, -1, -1, -1, -1, -1, -1, -1, -1, -1, -1, -1, -1, -1, -1]⟩,
           ⟨"c", [-1, -1, -1, -1], [-1, -1, -1, -1],
            [7, -1, -1, -1, -1, -1, -1, -1, -1, -1, -1, -1, -1, -1, -1, -1, -1, -1, -1, -1, -1, -1]⟩],
        none⟩) ∧
    (parseJobStatsText
      (fun p => if p = "proc/a/job_stats" then
        some ("job_stats:\n- job_id: a\n  open: \x7b samples: 3, unit: reqs \x7d\n- snapshot_time: 5\n  open: \x7b samples: 4, unit: reqs \x7d\n- job_id: c\n  open: \x7b samples: 7, unit: reqs \x7d")
        else none)
      ⟨[("proc/a/job_stats",
        [⟨"a", [-1, -1, -1, -1], [-1, -1, -1, -1],
          [3, -1, -1, -1, -1, -1, -1, -1, -1, -1, -1, -1, -1, -1, -1, -1, -1, -1, -1, -1, -1, -1]⟩,
         ⟨"c", [-1, -1, -1, -1], [-1, -1, -1, -1],
          [7, -1, -1, -1, -1, -1, -1, -1, -1, -1, -1, -1, -1, -1, -1, -1, -1, -1, -1, -1, -1, -1]⟩])]⟩
      "proc/a/job_stats"
      ⟨"job_stats", "lustre_job_write_samples_total", "ost", "p", writeSamplesHelp, false⟩
      ["component", "target", "jobid"] "ost" "OST0" =
      some ⟨⟨[("proc/a/job_stats",
        [⟨"a", [-1, -1, -1, -1], [-1, -1, -1, -1],
          [3, -1, -1, -1, -1, -1, -1, -1, -1, -1, -1, -1, -1, -1, -1, -1, -1, -1, -1, -1, -1, -1]⟩,
         ⟨"c", [-1, -1, -1, -1], [-1, -1, -1, -1],
          [7, -1, -1, -1, -1, -1, -1, -1, -1, -1, -1, -1, -1, -1, -1, -1, -1, -1, -1, -1, -1, -1]⟩])]⟩,
        [], 0,
        jobProjection ⟨"job_stats", "lustre_job_write_samples_total", "ost", "p", writeSamplesHelp, false⟩
          ["component", "target", "jobid"] "ost" "OST0"
          [⟨"a", [-1, -1, -1, -1], [-1, -1, -1, -1],
            [3, -1, -1, -1, -1, -1, -1, -1, -1, -1, -1, -1, -1, -1, -1, -1, -1, -1, -1, -1, -1, -1]⟩,
           ⟨"c", [-1, -1, -1, -1], [-1, -1, -1, -1],
            [7, -1, -1, -1, -1, -1, -1, -1, -1, -1, -1, -1, -1, -1, -1, -1, -1, -1, -1, -1, -1, -1]⟩],
        none⟩) := by
  have h := C9_jobstats_memoized
    (fun p => if p = "proc/a/job_stats" then
      some ("job_stats:\n- job_id: a\n  open: \x7b samples: 3, unit: reqs \x7d\n- snapshot_time: 5\n  open: \x7b samples: 4, unit: reqs \x7d\n- job_id: c\n  open: \x7b samples: 7, unit: reqs \x7d")
      else none)
    ⟨[]⟩ "proc/a/job_stats"
    ("job_stats:\n- job_id: a\n  open: \x7b samples: 3, unit: reqs \x7d\n- snapshot_time: 5\n  open: \x7b samples: 4, unit: reqs \x7d\n- job_id: c\n  open: \x7b samples: 7, unit: reqs \x7d")
    [⟨"a", [-1, -1, -1, -1], [-1, -1, -1, -1],
      [3, -1, -1, -1, -1, -1, -1, -1, -1, -1, -1, -1, -1, -1, -1, -1, -1, -1, -1, -1, -1, -1]⟩,
     ⟨"c", [-1, -1, -1, -1], [-1, -1, -1, -1],
      [7, -1, -1, -1, -1, -1, -1, -1, -1, -1, -1, -1, -1, -1, -1, -1, -1, -1, -1, -1, -1, -1]⟩]
    1
    ⟨"job_stats", "lustre_job_stats_total", "ost", "p", "jobHelp", true⟩
    ⟨"job_stats", "lustre_job_write_samples_total", "ost", "p", writeSamplesHelp, false⟩
    ["component", "target", "jobid"] ["component", "target", "jobid"]
    "ost" "OST0" "ost" "OST0"
    (by decide) (by decide) (by decide) (by decide)
  exact h

end LustreExp
